import Mathlib

/-!
Shallow embedding of the EasyTaxi dispatch server (`src/main.py`).

Modelling conventions:
* SQLite tables become Lean lists; a row is a structure.  `INSERT` appends at
  the end, `UPDATE ... WHERE id = ?` maps over the list guarded by the id,
  `DELETE ... WHERE id = ?` filters the list, `SELECT ... WHERE` is a
  `List.filter` / `List.find?`.  `ORDER BY created_at DESC` only permutes the
  scanned rows; every property proved below is independent of scan order, so
  rows are scanned in list order.
* `uuid.uuid4()` is modelled as a fresh-id counter `nextId`; the only property
  of uuids the code relies on is freshness of newly generated ids.
* Timestamps are natural numbers (seconds).  The code stores them as ISO-8601
  strings and parses them back with `datetime.fromisoformat`; the string codec
  is abstracted as an environment `Env` holding `parseIso` (partial, returns
  `none` on unparseable input, like the `except` in `parse_iso`) and
  `printIso`.  `datetime.utcnow()` is the explicit `now : Nat` argument.
* The haversine great-circle distance is a real-valued float computation in
  the source; the selection logic only compares distances, so the distance
  function is abstracted as `Env.dist` over rational coordinates.
* The Expo push notification (`send_push_notification`) is a fire-and-forget
  side effect with no influence on stored state; it is dropped.
* `st.offeredLog` is history instrumentation (ghost state): it records every
  `(root_job_id, driver_id)` pair for which an `offered` row was ever
  inserted.  No operation reads it; it only lets us state the
  "no driver is ever offered the same root twice" property.
-/

namespace EasyTaxi

instance {ε α : Type} [DecidableEq ε] [DecidableEq α] : DecidableEq (Except ε α) := fun a b =>
  match a, b with
  | .ok x, .ok y =>
    if h : x = y then .isTrue (by rw [h]) else .isFalse (by intro hh; cases hh; exact h rfl)
  | .ok _, .error _ => .isFalse (by intro hh; cases hh)
  | .error _, .ok _ => .isFalse (by intro hh; cases hh)
  | .error x, .error y =>
    if h : x = y then .isTrue (by rw [h]) else .isFalse (by intro hh; cases hh; exact h rfl)

/-- Abstracted environment: the ISO-8601 time codec and the haversine
distance, both opaque to the dispatch logic (only compared / pattern-matched
on). -/
structure Env where
  dist : Rat → Rat → Rat → Rat → Rat
  parseIso : String → Option Nat
  printIso : Nat → String

/-- A row of the `drivers` table. -/
structure Driver where
  id : String
  latitude : Option Rat
  longitude : Option Rat
  status : String
  updated_at : Option String
  expo_push_token : Option String
deriving DecidableEq

/-- A row of the `jobs` table. -/
structure Job where
  id : Nat
  driver_id : String
  customer_name : String
  address : String
  phone : String
  comment : String
  created_at : Nat
  status : String
  pickup_lat : Option Rat
  pickup_lng : Option Rat
  offer_expires_at : Option String
  root_job_id : Option Nat
deriving DecidableEq

/-- `str(row["root_job_id"] or row["id"])`: the root of a chain, falling back
to the row's own id when the column is NULL (uuid strings are never falsy). -/
def Job.rootOf (j : Job) : Nat :=
  j.root_job_id.getD j.id

/-- The whole persistent store (`drivers`, `jobs`, `job_declines` tables),
the uuid generator, and the ghost offer history. -/
structure St where
  drivers : List Driver
  jobs : List Job
  declines : List (Nat × String)
  nextId : Nat
  offeredLog : List (Nat × String)
deriving DecidableEq

/-- The freshly initialised empty database. -/
def St.init : St :=
  { drivers := [], jobs := [], declines := [], nextId := 0, offeredLog := [] }

/-- `is_offer_expired`: NULL or unparseable `offer_expires_at` is never
expired; otherwise expired iff `utcnow() > dt` (strict). -/
def is_offer_expired (env : Env) (offer_expires_at : Option String) (now : Nat) : Bool :=
  match offer_expires_at with
  | none => false
  | some s =>
    match env.parseIso s with
    | none => false
    | some t => decide (now > t)

/-- `get_declined_driver_ids`: the set of drivers ledgered for a root. -/
def get_declined_driver_ids (st : St) (root : Nat) : List String :=
  (st.declines.filter (fun p => p.1 == root)).map (fun p => p.2)

/-- `mark_declined`: `INSERT OR IGNORE INTO job_declines` — idempotent
insert keyed by `(root_job_id, driver_id)`. -/
def mark_declined (st : St) (root : Nat) (d : String) : St :=
  if (root, d) ∈ st.declines then st
  else { st with declines := st.declines ++ [(root, d)] }

/-- `UPDATE jobs SET status = s, offer_expires_at = NULL WHERE id = i` —
the row update shared by accept (`new`), decline and expiry (`declined`). -/
def setStatusById (jobs : List Job) (i : Nat) (s : String) : List Job :=
  jobs.map (fun j =>
    if j.id == i then { j with status := s, offer_expires_at := none } else j)

/-- Result of `_pick_nearest_online_driver` (the `best` dict). -/
structure Pick where
  driver_id : String
  distance_km : Rat
  updated_at : Option String
deriving DecidableEq

/-- The `best` candidate built from a driver row. -/
def mkPick (env : Env) (pl pg : Rat) (r : Driver) : Pick :=
  { driver_id := r.id
    distance_km := env.dist pl pg (r.latitude.getD 0) (r.longitude.getD 0)
    updated_at := r.updated_at }

/-- One iteration of the scan loop in `_pick_nearest_online_driver`: skip
excluded ids, missing positions, unparseable or stale `updated_at`
(`now - dt > max_age_sec or 120`), out-of-radius drivers
(`d > max_radius_km or 50.0`); otherwise keep the strictly nearer of the
current best and this driver. -/
def pickStep (env : Env) (now : Nat) (pl pg : Rat) (max_age_sec : Nat)
    (max_radius_km : Rat) (exclude : List String) (best : Option Pick)
    (r : Driver) : Option Pick :=
  if exclude.contains r.id then best
  else
    match r.latitude, r.longitude with
    | some _, some _ =>
      match env.parseIso (r.updated_at.getD "") with
      | none => best
      | some t =>
        if now - t > (if max_age_sec = 0 then 120 else max_age_sec) then best
        else
          if env.dist pl pg (r.latitude.getD 0) (r.longitude.getD 0) >
              (if max_radius_km = 0 then 50 else max_radius_km) then best
          else
            match best with
            | none => some (mkPick env pl pg r)
            | some b =>
              if env.dist pl pg (r.latitude.getD 0) (r.longitude.getD 0) <
                  b.distance_km then
                some (mkPick env pl pg r)
              else some b
    | _, _ => best

/-- `_pick_nearest_online_driver`: scan `SELECT * FROM drivers WHERE
status = 'online'` and keep the nearest eligible driver. -/
def _pick_nearest_online_driver (env : Env) (now : Nat) (drivers : List Driver)
    (pickup_lat pickup_lng : Rat) (max_age_sec : Nat) (max_radius_km : Rat)
    (exclude_driver_ids : List String) : Option Pick :=
  (drivers.filter (fun r => r.status == "online")).foldl
    (pickStep env now pickup_lat pickup_lng max_age_sec max_radius_km
      exclude_driver_ids) none

/-- The distance computed for a driver row (its position is non-null on every
row the scan keeps, so the `getD 0` defaults are never load-bearing). -/
def driverDist (env : Env) (pl pg : Rat) (r : Driver) : Rat :=
  env.dist pl pg (r.latitude.getD 0) (r.longitude.getD 0)

/-- The filter chain of the scan loop, as one boolean: not excluded, position
present, `updated_at` parseable and fresh (`now - dt ≤ max_age_sec or 120`),
within radius (`d ≤ max_radius_km or 50.0`).  Mirrors the `continue`s of
`_pick_nearest_online_driver` minus the SQL `status = 'online'` filter. -/
def eligCore (env : Env) (now : Nat) (pl pg : Rat) (max_age_sec : Nat)
    (max_radius_km : Rat) (exclude : List String) (r : Driver) : Bool :=
  !(exclude.contains r.id) &&
  (match r.latitude, r.longitude with
   | some _, some _ =>
     (match env.parseIso (r.updated_at.getD "") with
      | none => false
      | some t =>
        !(decide (now - t > (if max_age_sec = 0 then 120 else max_age_sec))) &&
        !(decide (driverDist env pl pg r >
            (if max_radius_km = 0 then 50 else max_radius_km))))
   | _, _ => false)

/-- A driver that survives every filter of `_pick_nearest_online_driver`:
online, not excluded, position present, fresh, within radius. -/
def eligibleDriver (env : Env) (now : Nat) (pl pg : Rat) (max_age_sec : Nat)
    (max_radius_km : Rat) (exclude : List String) (r : Driver) : Bool :=
  r.status == "online" && eligCore env now pl pg max_age_sec max_radius_km exclude r

/-- `_create_job_and_notify`: insert a fresh job row; an `offered` row gets
`offer_expires_at = now + (offer_ttl_sec or 180)` and is appended to the ghost
offer history.  Returns the new job id.  The push-notification side effect is
dropped. -/
def _create_job_and_notify (env : Env) (now : Nat) (st : St)
    (driver_id customer_name address phone comment : String)
    (pickup_lat pickup_lng : Option Rat) (status : String)
    (offer_ttl_sec : Option Nat) (root_job_id : Option Nat) : Nat × St :=
  let job_id := st.nextId
  let root := root_job_id.getD job_id
  let offer_expires_at : Option String :=
    if status = "offered" then
      some (env.printIso (now +
        (match offer_ttl_sec with
         | none => 180
         | some t => if t = 0 then 180 else t)))
    else none
  let j : Job :=
    { id := job_id, driver_id := driver_id, customer_name := customer_name
      address := address, phone := phone, comment := comment
      created_at := now, status := status
      pickup_lat := pickup_lat, pickup_lng := pickup_lng
      offer_expires_at := offer_expires_at, root_job_id := some root }
  (job_id,
    { st with
      jobs := st.jobs ++ [j]
      nextId := st.nextId + 1
      offeredLog :=
        if status = "offered" then st.offeredLog ++ [(root, driver_id)]
        else st.offeredLog })

/-- The dict returned by `_redistribute_offer_from_job` on success
(`distance_km` kept unrounded; the `round(·, 3)` only shapes the response). -/
structure Redis where
  new_offer_job_id : Nat
  chosen_driver_id : String
  distance_km : Rat
  driver_updated_at : Option String
  root_job_id : Nat
deriving DecidableEq

/-- `_redistribute_offer_from_job`: re-offer the job described by `job_row`
to the nearest online driver not yet ledgered for the root; `none` when the
row has no pickup point or no candidate survives. -/
def _redistribute_offer_from_job (env : Env) (now : Nat) (st : St) (job_row : Job)
    (max_age_sec : Nat) (max_radius_km : Rat) (offer_ttl_sec : Nat) :
    Option Redis × St :=
  match job_row.pickup_lat, job_row.pickup_lng with
  | some pl, some pg =>
    let root := job_row.rootOf
    let declined := get_declined_driver_ids st root
    match _pick_nearest_online_driver env now st.drivers pl pg
        (if max_age_sec = 0 then 120 else max_age_sec)
        (if max_radius_km = 0 then 50 else max_radius_km) declined with
    | none => (none, st)
    | some pick =>
      let res := _create_job_and_notify env now st pick.driver_id
        job_row.customer_name job_row.address job_row.phone job_row.comment
        (some pl) (some pg) "offered" (some offer_ttl_sec) (some root)
      (some
        { new_offer_job_id := res.1
          chosen_driver_id := pick.driver_id
          distance_km := pick.distance_km
          driver_updated_at := pick.updated_at
          root_job_id := root }, res.2)
  | _, _ => (none, st)

/-- The state transformation shared by the explicit decline
(`decline_offer`, with `d` the declining driver) and the lazy expiry
(`get_offers` / the sweeper, with `d` the current assignee): ledger the
driver, set the row to `declined` with `offer_expires_at` cleared, then
redistribute from the old row with the defaults `(120, 50.0, 180)`. -/
def declineCore (env : Env) (now : Nat) (st : St) (r : Job) (d : String) :
    Option Redis × St :=
  let st1 := mark_declined st r.rootOf d
  let st2 := { st1 with jobs := setStatusById st1.jobs r.id "declined" }
  _redistribute_offer_from_job env now st2 r 120 50 180

/-- The one step of the expiry loop in `get_offers` (and of the spec's
sweeper): an automatic decline by the current assignee. -/
def expireStep (env : Env) (now : Nat) (st : St) (r : Job) : St :=
  (declineCore env now st r r.driver_id).2

/-- The error taxonomy of the HTTP layer: 404 / 409 / 403 / 410. -/
inductive Err where
  | notFound
  | conflict
  | forbidden
  | expired
deriving DecidableEq

/-- `POST /update-location`: upsert the driver row, last write wins,
stamping `updated_at`. -/
def update_location (env : Env) (now : Nat) (st : St) (driver_id : String)
    (latitude longitude : Rat) (status : String) : St :=
  if st.drivers.any (fun r => r.id == driver_id) then
    { st with
      drivers := st.drivers.map (fun r =>
        if r.id == driver_id then
          { r with latitude := some latitude, longitude := some longitude
                   status := status, updated_at := some (env.printIso now) }
        else r) }
  else
    { st with
      drivers := st.drivers ++
        [{ id := driver_id, latitude := some latitude
           longitude := some longitude, status := status
           updated_at := some (env.printIso now), expo_push_token := none }] }

/-- `POST /register-push-token`: `ON CONFLICT(id) DO UPDATE SET
expo_push_token = excluded.expo_push_token` — upsert the token only; an
unknown driver is created at `(0, 0)` with status `offline`. -/
def register_push_token (env : Env) (now : Nat) (st : St)
    (driver_id expo_push_token : String) : St :=
  if st.drivers.any (fun r => r.id == driver_id) then
    { st with
      drivers := st.drivers.map (fun r =>
        if r.id == driver_id then
          { r with expo_push_token := some expo_push_token }
        else r) }
  else
    { st with
      drivers := st.drivers ++
        [{ id := driver_id, latitude := some 0, longitude := some 0
           status := "offline", updated_at := some (env.printIso now)
           expo_push_token := some expo_push_token }] }

/-- `POST /jobs` and `POST /send-job`: manual assignment, status `new`,
no pickup point, the row is its own root. -/
def create_job (env : Env) (now : Nat) (st : St)
    (driver_id customer_name address phone comment : String) : Nat × St :=
  _create_job_and_notify env now st driver_id customer_name address phone
    comment none none "new" none none

/-- `POST /send-job-auto`: pick the nearest online driver (404 when none)
and create a `new` job with the pickup point. -/
def send_job_auto (env : Env) (now : Nat) (st : St) (pickup_lat pickup_lng : Rat)
    (customer_name address phone comment : String) (max_age_sec : Nat)
    (max_radius_km : Rat) : Except Err (Nat × Pick) × St :=
  match _pick_nearest_online_driver env now st.drivers pickup_lat pickup_lng
      max_age_sec max_radius_km [] with
  | none => (.error .notFound, st)
  | some pick =>
    let res := _create_job_and_notify env now st pick.driver_id customer_name
      address phone comment (some pickup_lat) (some pickup_lng) "new" none none
    (.ok (res.1, pick), res.2)

/-- `POST /send-job-auto-offer`: pick the nearest online driver (404 when
none) and create an `offered` root job with a fresh TTL. -/
def send_job_auto_offer (env : Env) (now : Nat) (st : St)
    (pickup_lat pickup_lng : Rat) (customer_name address phone comment : String)
    (max_age_sec : Nat) (max_radius_km : Rat) (offer_ttl_sec : Nat) :
    Except Err (Nat × Pick) × St :=
  match _pick_nearest_online_driver env now st.drivers pickup_lat pickup_lng
      max_age_sec max_radius_km [] with
  | none => (.error .notFound, st)
  | some pick =>
    let res := _create_job_and_notify env now st pick.driver_id customer_name
      address phone comment (some pickup_lat) (some pickup_lng) "offered"
      (some offer_ttl_sec) none
    (.ok (res.1, pick), res.2)

/-- The loop body of `GET /jobs/offers/{driver_id}` over the fetched
snapshot: an expired offer is auto-declined and redistributed, a live one is
collected into the response. -/
def offersLoop (env : Env) (now : Nat) :
    List Job → St → List Job → List Job × St
  | [], st, acc => (acc.reverse, st)
  | r :: rest, st, acc =>
    if is_offer_expired env r.offer_expires_at now then
      offersLoop env now rest (expireStep env now st r) acc
    else
      offersLoop env now rest st (r :: acc)

/-- `GET /jobs/offers/{driver_id}`: fetch the driver's `offered` rows, lazily
expire the stale ones (ledger + `declined` + redistribution), return the rest.
The JSON projection of each returned row is dropped: the row itself is
returned (its `status` field is already `"offered"`). -/
def get_offers (env : Env) (now : Nat) (st : St) (driver_id : String) :
    List Job × St :=
  offersLoop env now
    (st.jobs.filter (fun j => j.driver_id == driver_id && j.status == "offered"))
    st []

/-- `POST /jobs/{job_id}/accept`: 404 unknown, 409 not `offered`, 403 wrong
driver, 410 after the deadline (with the implicit-expiry ledger entry and
`declined` update), else `offered → new` with the expiry cleared. -/
def accept_offer (env : Env) (now : Nat) (st : St) (job_id : Nat) (d : String) :
    Except Err Unit × St :=
  match st.jobs.find? (fun j => j.id == job_id) with
  | none => (.error .notFound, st)
  | some r =>
    if r.status ≠ "offered" then (.error .conflict, st)
    else if r.driver_id ≠ d then (.error .forbidden, st)
    else if is_offer_expired env r.offer_expires_at now then
      let st1 := mark_declined st r.rootOf r.driver_id
      (.error .expired,
        { st1 with jobs := setStatusById st1.jobs job_id "declined" })
    else
      (.ok (), { st with jobs := setStatusById st.jobs job_id "new" })

/-- `POST /jobs/{job_id}/decline`: 404 unknown, 409 not `offered`, 403 wrong
driver; on success ledger + `declined` + automatic redistribution, reported
with `ok = True` whatever the redistribution outcome. -/
def decline_offer (env : Env) (now : Nat) (st : St) (job_id : Nat) (d : String) :
    Except Err (Option Redis) × St :=
  match st.jobs.find? (fun j => j.id == job_id) with
  | none => (.error .notFound, st)
  | some r =>
    if r.status ≠ "offered" then (.error .conflict, st)
    else if r.driver_id ≠ d then (.error .forbidden, st)
    else
      let res := declineCore env now st r d
      (.ok res.1, res.2)

/-- `DELETE /jobs/{job_id}`: a withdrawn auto job still in `new`/`accepted`
with a pickup point is treated as an implicit decline (ledger +
redistribution); the row is then deleted in every case. -/
def delete_job (env : Env) (now : Nat) (st : St) (job_id : Nat) :
    Except Err (Option Redis) × St :=
  match st.jobs.find? (fun j => j.id == job_id) with
  | none => (.error .notFound, st)
  | some r =>
    let res :=
      if (r.status = "new" ∨ r.status = "accepted") ∧
          r.pickup_lat ≠ none ∧ r.pickup_lng ≠ none then
        _redistribute_offer_from_job env now
          (mark_declined st r.rootOf r.driver_id) r 120 50 180
      else (none, st)
    (.ok res.1,
      { res.2 with jobs := res.2.jobs.filter (fun j => !(j.id == job_id)) })

/-- Modelled from the spec: the Expiry Sweeper (§4.5) is absent from
`src/main.py` (the snapshot only has the lazy expiry inside `get_offers`);
per the spec it runs on a fixed 1–2 s interval and, for every job with
`status == offered` and a past `offer_expiry`, invokes the same expire
transition that the lazy path uses.  One sweep is one invocation of this
function. -/
def sweepExpired (env : Env) (now : Nat) (st : St) : St :=
  (st.jobs.filter (fun j =>
      j.status == "offered" && is_offer_expired env j.offer_expires_at now)).foldl
    (fun s r => expireStep env now s r) st

/-- The states reachable from the empty database through the dispatch
endpoints (read-only endpoints do not change state and are omitted). -/
inductive Reachable (env : Env) : St → Prop where
  | init : Reachable env St.init
  | update_location (st : St) (now : Nat) (d : String) (la lo : Rat) (s : String) :
      Reachable env st → Reachable env (update_location env now st d la lo s)
  | register_push_token (st : St) (now : Nat) (d tok : String) :
      Reachable env st → Reachable env (register_push_token env now st d tok)
  | create_job (st : St) (now : Nat) (d cn a p c : String) :
      Reachable env st → Reachable env (create_job env now st d cn a p c).2
  | send_job_auto (st : St) (now : Nat) (pl pg : Rat) (cn a p c : String)
      (ma : Nat) (mr : Rat) :
      Reachable env st →
      Reachable env (send_job_auto env now st pl pg cn a p c ma mr).2
  | send_job_auto_offer (st : St) (now : Nat) (pl pg : Rat) (cn a p c : String)
      (ma : Nat) (mr : Rat) (ttl : Nat) :
      Reachable env st →
      Reachable env (send_job_auto_offer env now st pl pg cn a p c ma mr ttl).2
  | get_offers (st : St) (now : Nat) (d : String) :
      Reachable env st → Reachable env (get_offers env now st d).2
  | accept_offer (st : St) (now : Nat) (jid : Nat) (d : String) :
      Reachable env st → Reachable env (accept_offer env now st jid d).2
  | decline_offer (st : St) (now : Nat) (jid : Nat) (d : String) :
      Reachable env st → Reachable env (decline_offer env now st jid d).2
  | delete_job (st : St) (now : Nat) (jid : Nat) :
      Reachable env st → Reachable env (delete_job env now st jid).2

/-- A non-terminal job row: the chain's single in-flight attempt.  (`accepted`
never occurs in this snapshot — no endpoint writes it — but `delete_job`
tests for it, so it counts as live.) -/
def live (j : Job) : Bool :=
  j.status == "offered" || j.status == "new" || j.status == "accepted"

/-- The inductive invariant of the store.  `log_cov` is the anti-loop core:
a pair `(root, d)` ever offered is either already ledgered, or is carried by
the chain's unique in-flight row, or its root chain is extinct (can never be
redistributed again). -/
structure Inv (st : St) : Prop where
  log_nodup : st.offeredLog.Nodup
  ids_nodup : (st.jobs.map Job.id).Nodup
  id_lt : ∀ j ∈ st.jobs, j.id < st.nextId
  root_lt : ∀ j ∈ st.jobs, j.rootOf < st.nextId
  log_lt : ∀ p ∈ st.offeredLog, p.1 < st.nextId
  live_unique : ∀ j ∈ st.jobs, ∀ k ∈ st.jobs, live j = true → live k = true →
    j.rootOf = k.rootOf → j = k
  log_cov : ∀ p ∈ st.offeredLog,
    p ∈ st.declines ∨
    (∃ j ∈ st.jobs, live j = true ∧ j.rootOf = p.1 ∧ j.driver_id = p.2) ∨
    (∀ j ∈ st.jobs, j.rootOf = p.1 → live j = false)

/-! Concrete instances used to evaluate the theorems below on explicit
inputs.  `env0` codes timestamps as the two strings `"t"` (parses to 100) and
`"exp"` (parses to 10), everything else being unparseable, and measures the
distance of a driver as its latitude. -/

/-- A concrete environment for evaluation. -/
def env0 : Env :=
  { dist := fun _ _ la _ => la
    parseIso := fun s => if s = "t" then some 100 else if s = "exp" then some 10 else none
    printIso := fun _ => "t" }

/-- Driver `A`, online at latitude 1, reported at time 100. -/
def drvA : Driver :=
  { id := "A", latitude := some 1, longitude := some 0, status := "online"
    updated_at := some "t", expo_push_token := none }

/-- Driver `B`, online at latitude 2, reported at time 100. -/
def drvB : Driver :=
  { id := "B", latitude := some 2, longitude := some 0, status := "online"
    updated_at := some "t", expo_push_token := none }

/-- A root job currently offered to driver `A`, expiring at time 100. -/
def job0 : Job :=
  { id := 0, driver_id := "A", customer_name := "c", address := "a"
    phone := "p", comment := "", created_at := 0, status := "offered"
    pickup_lat := some 0, pickup_lng := some 0
    offer_expires_at := some "t", root_job_id := some 0 }

/-- Like `job0` but already expired (deadline 10). -/
def job0exp : Job :=
  { job0 with offer_expires_at := some "exp" }

/-- Like `job0` but with an unparseable `offer_expires_at`. -/
def job0bad : Job :=
  { job0 with offer_expires_at := some "bad" }

/-- Store with only driver `A` online and `job0` offered to `A`: declining
leaves the redistribution with an empty candidate pool. -/
def stC3 : St :=
  { drivers := [drvA], jobs := [job0], declines := [], nextId := 1
    offeredLog := [(0, "A")] }

/-- Store with an expired offer to `A` while `B` is an eligible candidate. -/
def stC5 : St :=
  { drivers := [drvA, drvB], jobs := [job0exp], declines := [], nextId := 1
    offeredLog := [(0, "A")] }

/-- Store whose only offer carries an unparseable expiry. -/
def stC10 : St :=
  { drivers := [drvA], jobs := [job0bad], declines := [], nextId := 1
    offeredLog := [(0, "A")] }

/-- A store reached through the API: driver `A` reports online at time 50,
then an auto-offer is dispatched at time 100. -/
def stW : St :=
  (send_job_auto_offer env0 100
    (update_location env0 50 St.init "A" 1 0 "online")
    0 0 "c" "a" "p" "" 120 50 180).2

/-! ### Basic lemmas about the store primitives -/

theorem mem_declinedIds (st : St) (root : Nat) (d : String) :
    d ∈ get_declined_driver_ids st root ↔ (root, d) ∈ st.declines := by
  unfold get_declined_driver_ids
  simp only [List.mem_map, List.mem_filter, beq_iff_eq]
  constructor
  · rintro ⟨⟨a, b⟩, ⟨hm, h1⟩, h2⟩
    simp only at h1 h2
    subst h1; subst h2; exact hm
  · intro h; exact ⟨(root, d), ⟨h, rfl⟩, rfl⟩

theorem mark_declined_jobs (st : St) (root : Nat) (d : String) :
    (mark_declined st root d).jobs = st.jobs := by
  unfold mark_declined; split <;> rfl

theorem mark_declined_drivers (st : St) (root : Nat) (d : String) :
    (mark_declined st root d).drivers = st.drivers := by
  unfold mark_declined; split <;> rfl

theorem mark_declined_nextId (st : St) (root : Nat) (d : String) :
    (mark_declined st root d).nextId = st.nextId := by
  unfold mark_declined; split <;> rfl

theorem mark_declined_log (st : St) (root : Nat) (d : String) :
    (mark_declined st root d).offeredLog = st.offeredLog := by
  unfold mark_declined; split <;> rfl

theorem mark_declined_mono (st : St) (root : Nat) (d : String) (p : Nat × String)
    (h : p ∈ st.declines) : p ∈ (mark_declined st root d).declines := by
  unfold mark_declined; split
  · exact h
  · exact List.mem_append.mpr (Or.inl h)

theorem mark_declined_self (st : St) (root : Nat) (d : String) :
    (root, d) ∈ (mark_declined st root d).declines := by
  unfold mark_declined; split
  · assumption
  · exact List.mem_append.mpr (Or.inr (List.mem_singleton.mpr rfl))

theorem mark_declined_sub (st : St) (root : Nat) (d : String) (p : Nat × String)
    (h : p ∈ (mark_declined st root d).declines) :
    p ∈ st.declines ∨ p = (root, d) := by
  unfold mark_declined at h; split at h
  · exact Or.inl h
  · rcases List.mem_append.mp h with h' | h'
    · exact Or.inl h'
    · exact Or.inr (List.mem_singleton.mp h')

theorem setStatusById_id_map (jobs : List Job) (i : Nat) (s : String) :
    (setStatusById jobs i s).map Job.id = jobs.map Job.id := by
  unfold setStatusById
  rw [List.map_map]
  congr 1
  funext j
  simp only [Function.comp]
  split <;> rfl

theorem mem_setStatusById (jobs : List Job) (i : Nat) (s : String) (j : Job)
    (h : j ∈ setStatusById jobs i s) :
    ∃ j0 ∈ jobs,
      j = (if j0.id == i then { j0 with status := s, offer_expires_at := none } else j0) := by
  unfold setStatusById at h
  rcases List.mem_map.mp h with ⟨j0, hj0, hh⟩
  exact ⟨j0, hj0, hh.symm⟩

theorem setStatusById_mem_other (jobs : List Job) (i : Nat) (s : String) (j : Job)
    (hj : j ∈ jobs) (hne : j.id ≠ i) : j ∈ setStatusById jobs i s := by
  unfold setStatusById
  have : (fun j' : Job =>
      if j'.id == i then { j' with status := s, offer_expires_at := none } else j') j = j := by
    simp [hne]
  exact this ▸ List.mem_map_of_mem _ hj

theorem setStatusById_mem_target (jobs : List Job) (i : Nat) (s : String) (j : Job)
    (hj : j ∈ setStatusById jobs i s) (hid : j.id = i) :
    j.status = s ∧ j.offer_expires_at = none := by
  rcases mem_setStatusById jobs i s j hj with ⟨j0, _, hh⟩
  by_cases h0 : j0.id = i
  · simp only [h0, beq_self_eq_true, if_true] at hh
    subst hh; exact ⟨rfl, rfl⟩
  · simp only [beq_iff_eq, h0, if_false] at hh
    subst hh; exact absurd hid h0

theorem find?_id_map (f : Job → Job) (hf : ∀ j, (f j).id = j.id) (l : List Job) (n : Nat) :
    (l.map f).find? (fun j => j.id == n) = (l.find? (fun j => j.id == n)).map f := by
  induction l with
  | nil => rfl
  | cons a t ih =>
    rw [List.map_cons, List.find?_cons, List.find?_cons]
    have he : ((f a).id == n) = (a.id == n) := by rw [hf]
    rw [he]
    cases h : (a.id == n)
    · simpa [h] using ih
    · simp [h]

theorem find?_append_left {p : Job → Bool} {l₁ l₂ : List Job} {a : Job}
    (h : l₁.find? p = some a) : (l₁ ++ l₂).find? p = some a := by
  rw [List.find?_append, h]; rfl

/-! ### The scan loop of `_pick_nearest_online_driver` -/

theorem pickStep_eq (env : Env) (now : Nat) (pl pg : Rat) (ma : Nat) (mr : Rat)
    (ex : List String) (best : Option Pick) (r : Driver) :
    pickStep env now pl pg ma mr ex best r =
      if eligCore env now pl pg ma mr ex r then
        match best with
        | none => some (mkPick env pl pg r)
        | some b =>
          if driverDist env pl pg r < b.distance_km then some (mkPick env pl pg r)
          else some b
      else best := by
  unfold pickStep eligCore driverDist
  cases hc : ex.contains r.id
  · cases hla : r.latitude with
    | none => simp [hc, hla]
    | some la =>
      cases hlo : r.longitude with
      | none => simp [hc, hla, hlo]
      | some lo =>
        cases hp : env.parseIso (r.updated_at.getD "") with
        | none => simp [hc, hla, hlo, hp]
        | some t =>
          by_cases hage : (if ma = 0 then 120 else ma) < now - t
          · simp [hc, hla, hlo, hp, hage, gt_iff_lt]
          · by_cases hrad : (if mr = 0 then 50 else mr) < env.dist pl pg la lo
            · simp [hc, hla, hlo, hp, hage, hrad, gt_iff_lt]
            · cases best with
              | none => simp [hc, hla, hlo, hp, hage, hrad, gt_iff_lt]
              | some b => simp [hc, hla, hlo, hp, hage, hrad, gt_iff_lt]
  · simp [hc]

theorem pick_fold_spec (env : Env) (now : Nat) (pl pg : Rat) (ma : Nat) (mr : Rat)
    (ex : List String) (rows : List Driver) (acc : Option Pick) :
    ((rows.foldl (pickStep env now pl pg ma mr ex) acc = none ↔
        acc = none ∧ ∀ r ∈ rows, eligCore env now pl pg ma mr ex r = false) ∧
      ∀ b, rows.foldl (pickStep env now pl pg ma mr ex) acc = some b →
        (acc = some b ∨
          ∃ r ∈ rows, eligCore env now pl pg ma mr ex r = true ∧ b = mkPick env pl pg r) ∧
        (∀ a, acc = some a → b.distance_km ≤ a.distance_km) ∧
        (∀ r ∈ rows, eligCore env now pl pg ma mr ex r = true →
          b.distance_km ≤ driverDist env pl pg r)) := by
  induction rows generalizing acc with
  | nil =>
    refine ⟨by simp, ?_⟩
    intro b hb
    have hacc : acc = some b := hb
    refine ⟨Or.inl hacc, ?_, by simp⟩
    intro a ha
    rw [hacc] at ha
    cases Option.some_injective _ ha
    exact le_refl _
  | cons d0 rest ih =>
    rw [List.foldl_cons, pickStep_eq]
    by_cases he : eligCore env now pl pg ma mr ex d0 = true
    · simp only [he, if_true]
      have hnotnone : ∀ acc', acc' ≠ none →
          (rest.foldl (pickStep env now pl pg ma mr ex) acc' = none ↔
            acc' = none ∧ ∀ r ∈ rest, eligCore env now pl pg ma mr ex r = false) →
          ¬ rest.foldl (pickStep env now pl pg ma mr ex) acc' = none := by
        intro acc' hne hiff hnone
        exact hne (hiff.mp hnone).1
      cases acc with
      | none =>
        rcases ih (some (mkPick env pl pg d0)) with ⟨ihn, ihs⟩
        refine ⟨⟨fun hnone => absurd hnone (hnotnone _ (by simp) ihn), ?_⟩, ?_⟩
        · rintro ⟨-, hall⟩
          have := hall d0 (List.mem_cons_self d0 rest)
          rw [he] at this
          cases this
        · intro b hb
          rcases ihs b hb with ⟨horig, hacc, hmin⟩
          refine ⟨?_, ?_, ?_⟩
          · right
            rcases horig with h | ⟨r', hr', he', hb'⟩
            · exact ⟨d0, List.mem_cons_self d0 rest, he, (Option.some_injective _ h).symm⟩
            · exact ⟨r', List.mem_cons_of_mem d0 hr', he', hb'⟩
          · intro a ha; cases ha
          · intro r' hr' he'
            rcases List.mem_cons.mp hr' with h | h
            · rw [h]
              have := hacc (mkPick env pl pg d0) rfl
              simpa [mkPick, driverDist] using this
            · exact hmin r' h he'
      | some a =>
        by_cases hlt : driverDist env pl pg d0 < a.distance_km
        · simp only [hlt, if_true]
          rcases ih (some (mkPick env pl pg d0)) with ⟨ihn, ihs⟩
          refine ⟨⟨fun hnone => absurd hnone (hnotnone _ (by simp) ihn), ?_⟩, ?_⟩
          · rintro ⟨h, -⟩; cases h
          · intro b hb
            rcases ihs b hb with ⟨horig, hacc, hmin⟩
            have hble : b.distance_km ≤ driverDist env pl pg d0 := by
              have := hacc (mkPick env pl pg d0) rfl
              simpa [mkPick, driverDist] using this
            refine ⟨?_, ?_, ?_⟩
            · right
              rcases horig with h | ⟨r', hr', he', hb'⟩
              · exact ⟨d0, List.mem_cons_self d0 rest, he, (Option.some_injective _ h).symm⟩
              · exact ⟨r', List.mem_cons_of_mem d0 hr', he', hb'⟩
            · intro a' ha'
              cases Option.some_injective _ ha'
              exact le_of_lt (lt_of_le_of_lt hble hlt)
            · intro r' hr' he'
              rcases List.mem_cons.mp hr' with h | h
              · rw [h]; exact hble
              · exact hmin r' h he'
        · simp only [hlt, if_false]
          rcases ih (some a) with ⟨ihn, ihs⟩
          refine ⟨⟨fun hnone => absurd hnone (hnotnone _ (by simp) ihn), ?_⟩, ?_⟩
          · rintro ⟨h, -⟩; cases h
          · intro b hb
            rcases ihs b hb with ⟨horig, hacc, hmin⟩
            refine ⟨?_, ?_, ?_⟩
            · rcases horig with h | ⟨r', hr', he', hb'⟩
              · exact Or.inl h
              · exact Or.inr ⟨r', List.mem_cons_of_mem d0 hr', he', hb'⟩
            · intro a' ha'
              cases Option.some_injective _ ha'
              exact hacc a rfl
            · intro r' hr' he'
              rcases List.mem_cons.mp hr' with h | h
              · subst h
                exact le_trans (hacc a rfl) (not_lt.mp hlt)
              · exact hmin r' h he'
    · simp only [Bool.not_eq_true] at he
      simp only [he, Bool.false_eq_true, if_false]
      rcases ih acc with ⟨ihn, ihs⟩
      refine ⟨?_, ?_⟩
      · rw [ihn]
        constructor
        · rintro ⟨h1, h2⟩
          refine ⟨h1, ?_⟩
          intro r' hr'
          rcases List.mem_cons.mp hr' with h | h
          · subst h; exact he
          · exact h2 r' h
        · rintro ⟨h1, h2⟩
          exact ⟨h1, fun r' hr' => h2 r' (List.mem_cons_of_mem d0 hr')⟩
      · intro b hb
        rcases ihs b hb with ⟨horig, hacc, hmin⟩
        refine ⟨?_, hacc, ?_⟩
        · rcases horig with h | ⟨r', hr', he', hb'⟩
          · exact Or.inl h
          · exact Or.inr ⟨r', List.mem_cons_of_mem d0 hr', he', hb'⟩
        · intro r' hr' he'
          rcases List.mem_cons.mp hr' with h | h
          · subst h; rw [he] at he'; cases he'
          · exact hmin r' h he'

theorem pick_eq_none_iff (env : Env) (now : Nat) (drivers : List Driver)
    (pl pg : Rat) (ma : Nat) (mr : Rat) (ex : List String) :
    _pick_nearest_online_driver env now drivers pl pg ma mr ex = none ↔
      ∀ r ∈ drivers, eligibleDriver env now pl pg ma mr ex r = false := by
  unfold _pick_nearest_online_driver
  rw [(pick_fold_spec env now pl pg ma mr ex
    (drivers.filter (fun r => r.status == "online")) none).1]
  simp only [true_and]
  constructor
  · intro h r hr
    by_cases hon : (r.status == "online") = true
    · have := h r (List.mem_filter.mpr ⟨hr, hon⟩)
      unfold eligibleDriver
      rw [hon, this]
      rfl
    · unfold eligibleDriver
      rw [Bool.not_eq_true] at hon
      rw [hon]
      rfl
  · intro h r hr
    rcases List.mem_filter.mp hr with ⟨hmem, hon⟩
    have := h r hmem
    unfold eligibleDriver at this
    rw [hon] at this
    simpa using this

theorem pick_some_spec (env : Env) (now : Nat) (drivers : List Driver)
    (pl pg : Rat) (ma : Nat) (mr : Rat) (ex : List String) (b : Pick)
    (hb : _pick_nearest_online_driver env now drivers pl pg ma mr ex = some b) :
    (∃ r ∈ drivers, eligibleDriver env now pl pg ma mr ex r = true ∧
      b = mkPick env pl pg r) ∧
    ∀ r ∈ drivers, eligibleDriver env now pl pg ma mr ex r = true →
      b.distance_km ≤ driverDist env pl pg r := by
  unfold _pick_nearest_online_driver at hb
  rcases (pick_fold_spec env now pl pg ma mr ex
      (drivers.filter (fun r => r.status == "online")) none).2 b hb with
    ⟨horig, -, hmin⟩
  constructor
  · rcases horig with h | ⟨r, hr, he, hbr⟩
    · cases h
    · rcases List.mem_filter.mp hr with ⟨hmem, hon⟩
      refine ⟨r, hmem, ?_, hbr⟩
      unfold eligibleDriver
      rw [hon, he]
      rfl
  · intro r hr he
    unfold eligibleDriver at he
    rw [Bool.and_eq_true] at he
    exact hmin r (List.mem_filter.mpr ⟨hr, he.1⟩) he.2

theorem pick_not_excluded (env : Env) (now : Nat) (drivers : List Driver)
    (pl pg : Rat) (ma : Nat) (mr : Rat) (ex : List String) (b : Pick)
    (hb : _pick_nearest_online_driver env now drivers pl pg ma mr ex = some b) :
    b.driver_id ∉ ex := by
  rcases (pick_some_spec env now drivers pl pg ma mr ex b hb).1 with ⟨r, _, he, hbr⟩
  unfold eligibleDriver at he
  rw [Bool.and_eq_true] at he
  have hcore := he.2
  unfold eligCore at hcore
  rw [Bool.and_eq_true] at hcore
  have hnc := hcore.1
  intro hmem
  rw [Bool.not_eq_true'] at hnc
  have : ex.contains r.id = true := List.contains_iff_exists_mem_beq.mpr
    ⟨r.id, by rw [hbr] at hmem; exact hmem, by simp⟩
  rw [this] at hnc
  cases hnc

/-! ### Shape lemmas for `_create_job_and_notify` and
`_redistribute_offer_from_job` -/

theorem create_declines (env : Env) (now : Nat) (st : St) (d cn a p c : String)
    (pl pg : Option Rat) (s : String) (ttl : Option Nat) (root : Option Nat) :
    (_create_job_and_notify env now st d cn a p c pl pg s ttl root).2.declines =
      st.declines := rfl

theorem create_drivers (env : Env) (now : Nat) (st : St) (d cn a p c : String)
    (pl pg : Option Rat) (s : String) (ttl : Option Nat) (root : Option Nat) :
    (_create_job_and_notify env now st d cn a p c pl pg s ttl root).2.drivers =
      st.drivers := rfl

theorem redistribute_declines (env : Env) (now : Nat) (st : St) (r : Job)
    (ma : Nat) (mr : Rat) (ttl : Nat) :
    (_redistribute_offer_from_job env now st r ma mr ttl).2.declines =
      st.declines := by
  unfold _redistribute_offer_from_job
  cases r.pickup_lat <;> cases r.pickup_lng <;> simp
  split <;> rfl

theorem redistribute_drivers (env : Env) (now : Nat) (st : St) (r : Job)
    (ma : Nat) (mr : Rat) (ttl : Nat) :
    (_redistribute_offer_from_job env now st r ma mr ttl).2.drivers =
      st.drivers := by
  unfold _redistribute_offer_from_job
  cases r.pickup_lat <;> cases r.pickup_lng <;> simp
  split <;> rfl

/-! ### Preservation of the inductive invariant -/

theorem jobs_id_inj {jobs : List Job} (h : (jobs.map Job.id).Nodup) {j k : Job}
    (hj : j ∈ jobs) (hk : k ∈ jobs) (hid : j.id = k.id) : j = k :=
  List.inj_on_of_nodup_map h hj hk hid

theorem live_offered {j : Job} (h : j.status = "offered") : live j = true := by
  unfold live; rw [h]; rfl

theorem live_declined_upd (j : Job) :
    live { j with status := "declined", offer_expires_at := none } = false := rfl

theorem live_new_upd (j : Job) :
    live { j with status := "new", offer_expires_at := none } = true := rfl

theorem inv_mark (st : St) (root : Nat) (d : String) (h : Inv st) :
    Inv (mark_declined st root d) := by
  constructor
  · rw [mark_declined_log]; exact h.log_nodup
  · rw [mark_declined_jobs]; exact h.ids_nodup
  · rw [mark_declined_jobs, mark_declined_nextId]; exact h.id_lt
  · rw [mark_declined_jobs, mark_declined_nextId]; exact h.root_lt
  · rw [mark_declined_log, mark_declined_nextId]; exact h.log_lt
  · rw [mark_declined_jobs]; exact h.live_unique
  · rw [mark_declined_log, mark_declined_jobs]
    intro p hp
    rcases h.log_cov p hp with h1 | h2 | h3
    · exact Or.inl (mark_declined_mono st root d p h1)
    · exact Or.inr (Or.inl h2)
    · exact Or.inr (Or.inr h3)

theorem inv_delete_row (st : St) (i : Nat) (h : Inv st) :
    Inv { st with jobs := st.jobs.filter (fun j => !(j.id == i)) } := by
  have hsub : ∀ j ∈ st.jobs.filter (fun j => !(j.id == i)), j ∈ st.jobs :=
    fun j hj => (List.mem_filter.mp hj).1
  constructor
  · exact h.log_nodup
  · exact List.Nodup.sublist (List.Sublist.map _ (List.filter_sublist _)) h.ids_nodup
  · intro j hj; exact h.id_lt j (hsub j hj)
  · intro j hj; exact h.root_lt j (hsub j hj)
  · exact h.log_lt
  · intro j hj k hk hlj hlk hroot
    exact h.live_unique j (hsub j hj) k (hsub k hk) hlj hlk hroot
  · intro p hp
    rcases h.log_cov p hp with h1 | ⟨j, hj, hlive, hroot, hdrv⟩ | h3
    · exact Or.inl h1
    · by_cases hid : j.id = i
      · right; right
        intro k hk hkroot
        cases hl : live k
        · rfl
        · exfalso
          have hk' := hsub k hk
          have hkj : k = j :=
            h.live_unique k hk' j hj hl hlive (by rw [hkroot, hroot])
          have hkid : k.id = i := by rw [hkj, hid]
          have hfk := (List.mem_filter.mp hk).2
          rw [hkid] at hfk
          simp at hfk
      · refine Or.inr (Or.inl ⟨j, ?_, hlive, hroot, hdrv⟩)
        exact List.mem_filter.mpr ⟨hj, by simp [hid]⟩
    · right; right
      intro k hk hkroot
      exact h3 k (hsub k hk) hkroot

theorem inv_set_declined (st : St) (i : Nat) (h : Inv st) :
    Inv { st with jobs := setStatusById st.jobs i "declined" } := by
  have hpre : ∀ j ∈ setStatusById st.jobs i "declined", live j = true →
      j ∈ st.jobs ∧ j.id ≠ i := by
    intro j hj hl
    rcases mem_setStatusById st.jobs i "declined" j hj with ⟨j0, hj0, heq⟩
    by_cases h0 : j0.id = i
    · rw [if_pos (beq_iff_eq.mpr h0)] at heq
      rw [heq, live_declined_upd] at hl
      cases hl
    · rw [if_neg (by simpa using h0)] at heq
      rw [heq]
      exact ⟨hj0, h0⟩
  constructor
  · exact h.log_nodup
  · rw [setStatusById_id_map]; exact h.ids_nodup
  · intro j hj
    rcases mem_setStatusById st.jobs i "declined" j hj with ⟨j0, hj0, heq⟩
    have : j.id = j0.id := by rw [heq]; split <;> rfl
    rw [this]; exact h.id_lt j0 hj0
  · intro j hj
    rcases mem_setStatusById st.jobs i "declined" j hj with ⟨j0, hj0, heq⟩
    have : j.rootOf = j0.rootOf := by rw [heq]; split <;> rfl
    rw [this]; exact h.root_lt j0 hj0
  · exact h.log_lt
  · intro j hj k hk hlj hlk hroot
    exact h.live_unique j (hpre j hj hlj).1 k (hpre k hk hlk).1 hlj hlk hroot
  · intro p hp
    rcases h.log_cov p hp with h1 | ⟨j, hj, hlive, hroot, hdrv⟩ | h3
    · exact Or.inl h1
    · by_cases hid : j.id = i
      · right; right
        intro k hk hkroot
        cases hl : live k
        · rfl
        · exfalso
          rcases hpre k hk hl with ⟨hk', hkne⟩
          have hkj : k = j :=
            h.live_unique k hk' j hj hl hlive (by rw [hkroot, hroot])
          exact hkne (by rw [hkj, hid])
      · refine Or.inr (Or.inl ⟨j, ?_, hlive, hroot, hdrv⟩)
        exact setStatusById_mem_other st.jobs i "declined" j hj hid
    · right; right
      intro k hk hkroot
      cases hl : live k
      · rfl
      · exfalso
        have := h3 k (hpre k hk hl).1 hkroot
        rw [hl] at this
        cases this

theorem inv_accept_new (st : St) (r : Job) (h : Inv st) (hr : r ∈ st.jobs)
    (hoff : r.status = "offered") :
    Inv { st with jobs := setStatusById st.jobs r.id "new" } := by
  have hlr : live r = true := live_offered hoff
  have hpre : ∀ j ∈ setStatusById st.jobs r.id "new",
      (j = { r with status := "new", offer_expires_at := none }) ∨
      (j ∈ st.jobs ∧ j.id ≠ r.id) := by
    intro j hj
    rcases mem_setStatusById st.jobs r.id "new" j hj with ⟨j0, hj0, heq⟩
    by_cases h0 : j0.id = r.id
    · have : j0 = r := jobs_id_inj h.ids_nodup hj0 hr h0
      subst this
      rw [if_pos (beq_iff_eq.mpr h0)] at heq
      exact Or.inl heq
    · rw [if_neg (by simpa using h0)] at heq
      rw [heq]
      exact Or.inr ⟨hj0, h0⟩
  have hupd_mem : ({ r with status := "new", offer_expires_at := none } : Job) ∈
      setStatusById st.jobs r.id "new" := by
    unfold setStatusById
    have : (fun j : Job =>
        if j.id == r.id then { j with status := "new", offer_expires_at := none } else j) r =
        { r with status := "new", offer_expires_at := none } := by simp
    exact this ▸ List.mem_map_of_mem _ hr
  constructor
  · exact h.log_nodup
  · rw [setStatusById_id_map]; exact h.ids_nodup
  · intro j hj
    rcases hpre j hj with heq | ⟨hj', -⟩
    · rw [heq]; exact h.id_lt r hr
    · exact h.id_lt j hj'
  · intro j hj
    rcases hpre j hj with heq | ⟨hj', -⟩
    · rw [heq]; exact h.root_lt r hr
    · exact h.root_lt j hj'
  · exact h.log_lt
  · intro j hj k hk hlj hlk hroot
    rcases hpre j hj with heqj | ⟨hj', hjne⟩ <;> rcases hpre k hk with heqk | ⟨hk', hkne⟩
    · rw [heqj, heqk]
    · exfalso
      have : k = r := by
        refine h.live_unique k hk' r hr hlk hlr ?_
        rw [← hroot, heqj]
        rfl
      exact hkne (by rw [this])
    · exfalso
      have : j = r := by
        refine h.live_unique j hj' r hr hlj hlr ?_
        rw [hroot, heqk]
        rfl
      exact hjne (by rw [this])
    · exact h.live_unique j hj' k hk' hlj hlk hroot
  · intro p hp
    rcases h.log_cov p hp with h1 | ⟨j, hj, hlive, hroot, hdrv⟩ | h3
    · exact Or.inl h1
    · by_cases hid : j.id = r.id
      · have hjr : j = r := jobs_id_inj h.ids_nodup hj hr hid
        subst hjr
        refine Or.inr (Or.inl ⟨{ j with status := "new", offer_expires_at := none },
          hupd_mem, live_new_upd j, hroot, hdrv⟩)
      · refine Or.inr (Or.inl ⟨j, ?_, hlive, hroot, hdrv⟩)
        exact setStatusById_mem_other st.jobs r.id "new" j hj hid
    · right; right
      intro k hk hkroot
      rcases hpre k hk with heqk | ⟨hk', -⟩
      · exfalso
        have hrroot : r.rootOf = p.1 := by
          rw [← hkroot, heqk]
          rfl
        have := h3 r hr hrroot
        rw [hlr] at this
        cases this
      · exact h3 k hk' hkroot

theorem inv_insert_offered (st : St) (jNew : Job) (R : Nat) (d' : String)
    (hid : jNew.id = st.nextId) (hroot : jNew.root_job_id = some R)
    (hdrv : jNew.driver_id = d') (hstat : jNew.status = "offered")
    (h : Inv st) (hR : R < st.nextId)
    (hfresh : (R, d') ∉ st.offeredLog)
    (hcov : ∀ x, (R, x) ∈ st.offeredLog → (R, x) ∈ st.declines)
    (hnolive : ∀ j ∈ st.jobs, j.rootOf = R → live j = false) :
    Inv { st with
          jobs := st.jobs ++ [jNew]
          nextId := st.nextId + 1
          offeredLog := st.offeredLog ++ [(R, d')] } := by
  have hrootOf : jNew.rootOf = R := by unfold Job.rootOf; rw [hroot]; rfl
  have hlN : live jNew = true := live_offered hstat
  constructor
  · rw [List.nodup_append]
    refine ⟨h.log_nodup, List.nodup_singleton _, ?_⟩
    intro a ha hb
    rw [List.mem_singleton.mp hb] at ha
    exact hfresh ha
  · rw [List.map_append]
    rw [List.nodup_append]
    refine ⟨h.ids_nodup, List.nodup_singleton _, ?_⟩
    intro a ha hb
    rcases List.mem_map.mp ha with ⟨j, hj, hja⟩
    have h1 : a < st.nextId := hja ▸ h.id_lt j hj
    rw [List.mem_singleton.mp hb, hid] at h1
    exact lt_irrefl _ h1
  · intro j hj
    rcases List.mem_append.mp hj with hj' | hj'
    · exact Nat.lt_succ_of_lt (h.id_lt j hj')
    · rw [List.mem_singleton.mp hj', hid]
      exact Nat.lt_succ_self _
  · intro j hj
    rcases List.mem_append.mp hj with hj' | hj'
    · exact Nat.lt_succ_of_lt (h.root_lt j hj')
    · rw [List.mem_singleton.mp hj', hrootOf]
      exact Nat.lt_succ_of_lt hR
  · intro p hp
    rcases List.mem_append.mp hp with hp' | hp'
    · exact Nat.lt_succ_of_lt (h.log_lt p hp')
    · rw [List.mem_singleton.mp hp']
      exact Nat.lt_succ_of_lt hR
  · intro j hj k hk hlj hlk hroot'
    rcases List.mem_append.mp hj with hj' | hj' <;>
      rcases List.mem_append.mp hk with hk' | hk'
    · exact h.live_unique j hj' k hk' hlj hlk hroot'
    · exfalso
      rw [List.mem_singleton.mp hk'] at hroot'
      rw [hrootOf] at hroot'
      have := hnolive j hj' hroot'
      rw [hlj] at this
      cases this
    · exfalso
      rw [List.mem_singleton.mp hj'] at hroot'
      rw [hrootOf] at hroot'
      have := hnolive k hk' hroot'.symm
      rw [hlk] at this
      cases this
    · rw [List.mem_singleton.mp hj', List.mem_singleton.mp hk']
  · intro p hp
    rcases List.mem_append.mp hp with hp' | hp'
    · rcases h.log_cov p hp' with h1 | ⟨j, hj, hlive, hjroot, hjdrv⟩ | h3
      · exact Or.inl h1
      · exact Or.inr (Or.inl ⟨j, List.mem_append.mpr (Or.inl hj), hlive, hjroot, hjdrv⟩)
      · by_cases hpR : p.1 = R
        · left
          have hmem : (R, p.2) ∈ st.offeredLog := by
            have : p = (R, p.2) := by
              rw [← hpR]
            rw [← this]
            exact hp'
          have := hcov p.2 hmem
          have hpe : p = (R, p.2) := by rw [← hpR]
          rw [hpe]
          exact this
        · right; right
          intro k hk hkroot
          rcases List.mem_append.mp hk with hk' | hk'
          · exact h3 k hk' hkroot
          · exfalso
            rw [List.mem_singleton.mp hk', hrootOf] at hkroot
            exact hpR hkroot.symm
    · rw [List.mem_singleton.mp hp']
      exact Or.inr (Or.inl ⟨jNew, List.mem_append.mpr (Or.inr (List.mem_singleton.mpr rfl)),
        hlN, hrootOf, hdrv⟩)

theorem live_of_new {j : Job} (h : j.status = "new") : live j = true := by
  unfold live; rw [h]; rfl

theorem live_of_accepted {j : Job} (h : j.status = "accepted") : live j = true := by
  unfold live; rw [h]; rfl

/-- The state produced by inserting a `new` job row. -/
theorem create_new_state (env : Env) (now : Nat) (st : St) (d cn a p c : String)
    (pl pg : Option Rat) :
    (_create_job_and_notify env now st d cn a p c pl pg "new" none none).2 =
      { st with
        jobs := st.jobs ++
          [{ id := st.nextId, driver_id := d, customer_name := cn, address := a
             phone := p, comment := c, created_at := now, status := "new"
             pickup_lat := pl, pickup_lng := pg, offer_expires_at := none
             root_job_id := some st.nextId }]
        nextId := st.nextId + 1 } := by
  unfold _create_job_and_notify
  simp

/-- The state produced by inserting a root `offered` row (auto-offer). -/
theorem create_offered_selfroot_state (env : Env) (now : Nat) (st : St)
    (d cn a p c : String) (pl pg : Option Rat) (ttl : Nat) :
    (_create_job_and_notify env now st d cn a p c pl pg "offered" (some ttl) none).2 =
      { st with
        jobs := st.jobs ++
          [{ id := st.nextId, driver_id := d, customer_name := cn, address := a
             phone := p, comment := c, created_at := now, status := "offered"
             pickup_lat := pl, pickup_lng := pg
             offer_expires_at := some (env.printIso (now + (if ttl = 0 then 180 else ttl)))
             root_job_id := some st.nextId }]
        nextId := st.nextId + 1
        offeredLog := st.offeredLog ++ [(st.nextId, d)] } := by
  unfold _create_job_and_notify
  simp

/-- The state produced by inserting a redistribution `offered` row for an
existing root. -/
theorem create_offered_root_state (env : Env) (now : Nat) (st : St)
    (d cn a p c : String) (pl pg : Option Rat) (ttl R : Nat) :
    (_create_job_and_notify env now st d cn a p c pl pg "offered" (some ttl) (some R)).2 =
      { st with
        jobs := st.jobs ++
          [{ id := st.nextId, driver_id := d, customer_name := cn, address := a
             phone := p, comment := c, created_at := now, status := "offered"
             pickup_lat := pl, pickup_lng := pg
             offer_expires_at := some (env.printIso (now + (if ttl = 0 then 180 else ttl)))
             root_job_id := some R }]
        nextId := st.nextId + 1
        offeredLog := st.offeredLog ++ [(R, d)] } := by
  unfold _create_job_and_notify
  simp

/-- `_redistribute_offer_from_job` either leaves the store untouched (no
pickup point or no candidate) or inserts exactly one fresh `offered` row for
the old root, assigned to the picked driver. -/
theorem redistribute_shape (env : Env) (now : Nat) (st : St) (r : Job)
    (ma : Nat) (mr : Rat) (ttl : Nat) :
    ((_redistribute_offer_from_job env now st r ma mr ttl).1 = none ∧
      (_redistribute_offer_from_job env now st r ma mr ttl).2 = st) ∨
    ∃ pl pg b,
      r.pickup_lat = some pl ∧ r.pickup_lng = some pg ∧
      _pick_nearest_online_driver env now st.drivers pl pg
        (if ma = 0 then 120 else ma) (if mr = 0 then 50 else mr)
        (get_declined_driver_ids st r.rootOf) = some b ∧
      (_redistribute_offer_from_job env now st r ma mr ttl).1 =
        some { new_offer_job_id := st.nextId, chosen_driver_id := b.driver_id
               distance_km := b.distance_km, driver_updated_at := b.updated_at
               root_job_id := r.rootOf } ∧
      (_redistribute_offer_from_job env now st r ma mr ttl).2 =
        { st with
          jobs := st.jobs ++
            [{ id := st.nextId, driver_id := b.driver_id
               customer_name := r.customer_name, address := r.address
               phone := r.phone, comment := r.comment, created_at := now
               status := "offered", pickup_lat := some pl, pickup_lng := some pg
               offer_expires_at := some (env.printIso (now + (if ttl = 0 then 180 else ttl)))
               root_job_id := some r.rootOf }]
          nextId := st.nextId + 1
          offeredLog := st.offeredLog ++ [(r.rootOf, b.driver_id)] } := by
  unfold _redistribute_offer_from_job
  cases hpl : r.pickup_lat with
  | none => left; exact ⟨rfl, rfl⟩
  | some pl =>
    cases hpg : r.pickup_lng with
    | none => left; exact ⟨rfl, rfl⟩
    | some pg =>
      simp only
      cases hpick : _pick_nearest_online_driver env now st.drivers pl pg
          (if ma = 0 then 120 else ma) (if mr = 0 then 50 else mr)
          (get_declined_driver_ids st r.rootOf) with
      | none =>
        left
        simp [hpick]
      | some b =>
        right
        refine ⟨pl, pg, b, rfl, rfl, hpick, ?_, ?_⟩
        · simp only [hpick]
          rfl
        · simp only [hpick]
          rw [create_offered_root_state]

/-- `declineCore` written out: ledger, row update, then redistribution. -/
theorem declineCore_eq (env : Env) (now : Nat) (st : St) (r : Job) (d : String) :
    declineCore env now st r d =
      _redistribute_offer_from_job env now
        { mark_declined st r.rootOf d with
          jobs := setStatusById (mark_declined st r.rootOf d).jobs r.id "declined" }
        r 120 50 180 := rfl

theorem inv_redistribute (env : Env) (now : Nat) (st : St) (r : Job)
    (ma : Nat) (mr : Rat) (ttl : Nat) (h : Inv st)
    (hR : r.rootOf < st.nextId)
    (hcov : ∀ x, (r.rootOf, x) ∈ st.offeredLog → (r.rootOf, x) ∈ st.declines)
    (hnolive : ∀ j ∈ st.jobs, j.rootOf = r.rootOf → live j = false) :
    Inv (_redistribute_offer_from_job env now st r ma mr ttl).2 := by
  rcases redistribute_shape env now st r ma mr ttl with
    ⟨-, heq⟩ | ⟨pl, pg, b, -, -, hpick, -, heq⟩
  · rw [heq]; exact h
  · rw [heq]
    refine inv_insert_offered st _ r.rootOf b.driver_id rfl rfl rfl rfl h hR ?_ hcov hnolive
    intro hmem
    have hb := pick_not_excluded env now st.drivers pl pg _ _ _ b hpick
    exact hb ((mem_declinedIds st r.rootOf b.driver_id).mpr (hcov b.driver_id hmem))

theorem inv_declineCore (env : Env) (now : Nat) (st : St) (r : Job) (d : String)
    (h : Inv st) (hr : r ∈ st.jobs) (hoff : r.status = "offered")
    (hd : r.driver_id = d) :
    Inv (declineCore env now st r d).2 := by
  have hlr := live_offered hoff
  rw [declineCore_eq]
  have hInv2 : Inv { mark_declined st r.rootOf d with
      jobs := setStatusById (mark_declined st r.rootOf d).jobs r.id "declined" } :=
    inv_set_declined (mark_declined st r.rootOf d) r.id (inv_mark st r.rootOf d h)
  refine inv_redistribute env now _ r 120 50 180 hInv2 ?_ ?_ ?_
  · show r.rootOf < (mark_declined st r.rootOf d).nextId
    rw [mark_declined_nextId]
    exact h.root_lt r hr
  · intro x hx
    have hx' : (r.rootOf, x) ∈ st.offeredLog := by
      rw [← mark_declined_log st r.rootOf d]
      exact hx
    show (r.rootOf, x) ∈ (mark_declined st r.rootOf d).declines
    rcases h.log_cov (r.rootOf, x) hx' with h1 | ⟨j, hj, hlive, hjroot, hjdrv⟩ | h3
    · exact mark_declined_mono st r.rootOf d _ h1
    · have hjr : j = r := h.live_unique j hj r hr hlive hlr hjroot
      have hx2 : x = d := by
        rw [← hd, ← hjr]
        exact hjdrv.symm
      rw [hx2]
      exact mark_declined_self st r.rootOf d
    · exfalso
      have := h3 r hr rfl
      rw [hlr] at this
      cases this
  · intro j hj hjroot
    rcases mem_setStatusById (mark_declined st r.rootOf d).jobs r.id "declined" j hj with
      ⟨j0, hj0, heq⟩
    rw [mark_declined_jobs] at hj0
    by_cases h0 : j0.id = r.id
    · rw [if_pos (beq_iff_eq.mpr h0)] at heq
      rw [heq]
      exact live_declined_upd j0
    · rw [if_neg (by simpa using h0)] at heq
      cases hl : live j
      · rfl
      · exfalso
        have hj0r : j0 = r := by
          refine h.live_unique j0 hj0 r hr ?_ hlr ?_
          · rw [← heq]; exact hl
          · rw [← heq]; exact hjroot
        exact h0 (by rw [hj0r])

theorem declineCore_preserves_other (env : Env) (now : Nat) (st : St) (r : Job)
    (d : String) (j : Job) (hj : j ∈ st.jobs) (hne : j.id ≠ r.id) :
    j ∈ (declineCore env now st r d).2.jobs := by
  rw [declineCore_eq]
  have h2 : j ∈ setStatusById (mark_declined st r.rootOf d).jobs r.id "declined" := by
    refine setStatusById_mem_other _ r.id "declined" j ?_ hne
    rw [mark_declined_jobs]
    exact hj
  rcases redistribute_shape env now
      { mark_declined st r.rootOf d with
        jobs := setStatusById (mark_declined st r.rootOf d).jobs r.id "declined" }
      r 120 50 180 with ⟨-, heq⟩ | ⟨pl, pg, b, -, -, -, -, heq⟩
  · rw [heq]; exact h2
  · rw [heq]; exact List.mem_append.mpr (Or.inl h2)

theorem declineCore_declines_mono (env : Env) (now : Nat) (st : St) (r : Job)
    (d : String) (p : Nat × String) (hp : p ∈ st.declines) :
    p ∈ (declineCore env now st r d).2.declines := by
  rw [declineCore_eq, redistribute_declines]
  exact mark_declined_mono st r.rootOf d p hp

theorem declineCore_declines_self (env : Env) (now : Nat) (st : St) (r : Job)
    (d : String) : (r.rootOf, d) ∈ (declineCore env now st r d).2.declines := by
  rw [declineCore_eq, redistribute_declines]
  exact mark_declined_self st r.rootOf d

theorem declineCore_nextId_ge (env : Env) (now : Nat) (st : St) (r : Job)
    (d : String) : st.nextId ≤ (declineCore env now st r d).2.nextId := by
  rw [declineCore_eq]
  rcases redistribute_shape env now
      { mark_declined st r.rootOf d with
        jobs := setStatusById (mark_declined st r.rootOf d).jobs r.id "declined" }
      r 120 50 180 with ⟨-, heq⟩ | ⟨pl, pg, b, -, -, -, -, heq⟩
  · rw [heq]
    show st.nextId ≤ (mark_declined st r.rootOf d).nextId
    rw [mark_declined_nextId]
  · rw [heq]
    show st.nextId ≤ (mark_declined st r.rootOf d).nextId + 1
    rw [mark_declined_nextId]
    exact Nat.le_succ _

theorem declineCore_row_declined (env : Env) (now : Nat) (st : St) (r : Job)
    (d : String) (hlt : ∀ j ∈ st.jobs, j.id < st.nextId) (hr : r ∈ st.jobs) :
    ∀ j ∈ (declineCore env now st r d).2.jobs, j.id = r.id →
      j.status = "declined" ∧ j.offer_expires_at = none := by
  rw [declineCore_eq]
  have htarget : ∀ j ∈ setStatusById (mark_declined st r.rootOf d).jobs r.id "declined",
      j.id = r.id → j.status = "declined" ∧ j.offer_expires_at = none := by
    intro j hj hid
    exact setStatusById_mem_target _ r.id "declined" j hj hid
  rcases redistribute_shape env now
      { mark_declined st r.rootOf d with
        jobs := setStatusById (mark_declined st r.rootOf d).jobs r.id "declined" }
      r 120 50 180 with ⟨-, heq⟩ | ⟨pl, pg, b, -, -, -, -, heq⟩
  · rw [heq]
    exact htarget
  · rw [heq]
    intro j hj hid
    rcases List.mem_append.mp hj with hj' | hj'
    · exact htarget j hj' hid
    · exfalso
      have hjid : j.id = (mark_declined st r.rootOf d).nextId := by
        rw [List.mem_singleton.mp hj']
      rw [mark_declined_nextId] at hjid
      rw [hid] at hjid
      exact Nat.lt_irrefl _ (hjid ▸ hlt r hr)

theorem inv_insert_selfroot (st : St) (jNew : Job) (hid : jNew.id = st.nextId)
    (hroot : jNew.root_job_id = some st.nextId) (h : Inv st) :
    Inv { st with jobs := st.jobs ++ [jNew], nextId := st.nextId + 1 } := by
  have hrootOf : jNew.rootOf = st.nextId := by unfold Job.rootOf; rw [hroot]; rfl
  constructor
  · exact h.log_nodup
  · rw [List.map_append, List.nodup_append]
    refine ⟨h.ids_nodup, List.nodup_singleton _, ?_⟩
    intro a ha hb
    rcases List.mem_map.mp ha with ⟨j, hj, hja⟩
    have h1 : a < st.nextId := by rw [← hja]; exact h.id_lt j hj
    rw [List.mem_singleton.mp hb, hid] at h1
    exact lt_irrefl _ h1
  · intro j hj
    rcases List.mem_append.mp hj with hj' | hj'
    · exact Nat.lt_succ_of_lt (h.id_lt j hj')
    · rw [List.mem_singleton.mp hj', hid]
      exact Nat.lt_succ_self _
  · intro j hj
    rcases List.mem_append.mp hj with hj' | hj'
    · exact Nat.lt_succ_of_lt (h.root_lt j hj')
    · rw [List.mem_singleton.mp hj', hrootOf]
      exact Nat.lt_succ_self _
  · intro p hp
    exact Nat.lt_succ_of_lt (h.log_lt p hp)
  · intro j hj k hk hlj hlk hroot'
    rcases List.mem_append.mp hj with hj' | hj' <;>
      rcases List.mem_append.mp hk with hk' | hk'
    · exact h.live_unique j hj' k hk' hlj hlk hroot'
    · exfalso
      rw [List.mem_singleton.mp hk', hrootOf] at hroot'
      have := h.root_lt j hj'
      rw [hroot'] at this
      exact Nat.lt_irrefl _ this
    · exfalso
      rw [List.mem_singleton.mp hj', hrootOf] at hroot'
      have := h.root_lt k hk'
      rw [← hroot'] at this
      exact Nat.lt_irrefl _ this
    · rw [List.mem_singleton.mp hj', List.mem_singleton.mp hk']
  · intro p hp
    rcases h.log_cov p hp with h1 | ⟨j, hj, hlive, hjroot, hjdrv⟩ | h3
    · exact Or.inl h1
    · exact Or.inr (Or.inl ⟨j, List.mem_append.mpr (Or.inl hj), hlive, hjroot, hjdrv⟩)
    · right; right
      intro k hk hkroot
      rcases List.mem_append.mp hk with hk' | hk'
      · exact h3 k hk' hkroot
      · exfalso
        rw [List.mem_singleton.mp hk', hrootOf] at hkroot
        have := h.log_lt p hp
        rw [← hkroot] at this
        exact Nat.lt_irrefl _ this

theorem inv_insert_offered_selfroot (st : St) (jNew : Job) (d' : String)
    (hid : jNew.id = st.nextId) (hroot : jNew.root_job_id = some st.nextId)
    (hdrv : jNew.driver_id = d') (hstat : jNew.status = "offered") (h : Inv st) :
    Inv { st with
          jobs := st.jobs ++ [jNew]
          nextId := st.nextId + 1
          offeredLog := st.offeredLog ++ [(st.nextId, d')] } := by
  have hrootOf : jNew.rootOf = st.nextId := by unfold Job.rootOf; rw [hroot]; rfl
  have hbase := inv_insert_selfroot st jNew hid hroot h
  constructor
  · rw [List.nodup_append]
    refine ⟨h.log_nodup, List.nodup_singleton _, ?_⟩
    intro a ha hb
    have h1 := h.log_lt a ha
    rw [List.mem_singleton.mp hb] at h1
    exact Nat.lt_irrefl _ h1
  · exact hbase.ids_nodup
  · exact hbase.id_lt
  · exact hbase.root_lt
  · intro p hp
    rcases List.mem_append.mp hp with hp' | hp'
    · exact Nat.lt_succ_of_lt (h.log_lt p hp')
    · rw [List.mem_singleton.mp hp']
      exact Nat.lt_succ_self _
  · exact hbase.live_unique
  · intro p hp
    rcases List.mem_append.mp hp with hp' | hp'
    · rcases h.log_cov p hp' with h1 | ⟨j, hj, hlive, hjroot, hjdrv⟩ | h3
      · exact Or.inl h1
      · exact Or.inr (Or.inl ⟨j, List.mem_append.mpr (Or.inl hj), hlive, hjroot, hjdrv⟩)
      · right; right
        intro k hk hkroot
        rcases List.mem_append.mp hk with hk' | hk'
        · exact h3 k hk' hkroot
        · exfalso
          rw [List.mem_singleton.mp hk', hrootOf] at hkroot
          have := h.log_lt p hp'
          rw [← hkroot] at this
          exact Nat.lt_irrefl _ this
    · rw [List.mem_singleton.mp hp']
      refine Or.inr (Or.inl ⟨jNew,
        List.mem_append.mpr (Or.inr (List.mem_singleton.mpr rfl)),
        live_offered hstat, hrootOf, hdrv⟩)

/-! ### Invariant preservation per endpoint -/

theorem inv_update_location (env : Env) (now : Nat) (st : St) (did : String)
    (la lo : Rat) (s : String) (h : Inv st) :
    Inv (update_location env now st did la lo s) := by
  unfold update_location
  split <;>
    exact ⟨h.log_nodup, h.ids_nodup, h.id_lt, h.root_lt, h.log_lt,
      h.live_unique, h.log_cov⟩

theorem inv_register_push_token (env : Env) (now : Nat) (st : St)
    (did tok : String) (h : Inv st) :
    Inv (register_push_token env now st did tok) := by
  unfold register_push_token
  split <;>
    exact ⟨h.log_nodup, h.ids_nodup, h.id_lt, h.root_lt, h.log_lt,
      h.live_unique, h.log_cov⟩

theorem inv_create_job (env : Env) (now : Nat) (st : St) (d cn a p c : String)
    (h : Inv st) : Inv (create_job env now st d cn a p c).2 := by
  unfold create_job
  rw [create_new_state]
  exact inv_insert_selfroot st _ rfl rfl h

theorem inv_send_job_auto (env : Env) (now : Nat) (st : St) (pl pg : Rat)
    (cn a p c : String) (ma : Nat) (mr : Rat) (h : Inv st) :
    Inv (send_job_auto env now st pl pg cn a p c ma mr).2 := by
  unfold send_job_auto
  cases hpick : _pick_nearest_online_driver env now st.drivers pl pg ma mr [] with
  | none => exact h
  | some pick =>
    show Inv (_create_job_and_notify env now st pick.driver_id cn a p c
      (some pl) (some pg) "new" none none).2
    rw [create_new_state]
    exact inv_insert_selfroot st _ rfl rfl h

theorem inv_send_job_auto_offer (env : Env) (now : Nat) (st : St) (pl pg : Rat)
    (cn a p c : String) (ma : Nat) (mr : Rat) (ttl : Nat) (h : Inv st) :
    Inv (send_job_auto_offer env now st pl pg cn a p c ma mr ttl).2 := by
  unfold send_job_auto_offer
  cases hpick : _pick_nearest_online_driver env now st.drivers pl pg ma mr [] with
  | none => exact h
  | some pick =>
    show Inv (_create_job_and_notify env now st pick.driver_id cn a p c
      (some pl) (some pg) "offered" (some ttl) none).2
    rw [create_offered_selfroot_state]
    exact inv_insert_offered_selfroot st _ pick.driver_id rfl rfl rfl rfl h

theorem inv_accept_offer (env : Env) (now : Nat) (st : St) (jid : Nat)
    (d : String) (h : Inv st) : Inv (accept_offer env now st jid d).2 := by
  unfold accept_offer
  cases hfind : st.jobs.find? (fun j => j.id == jid) with
  | none => exact h
  | some r =>
    dsimp only
    have hrmem : r ∈ st.jobs := List.mem_of_find?_eq_some hfind
    have hrid : r.id = jid := by
      have := List.find?_some hfind
      simpa using this
    by_cases hst : r.status ≠ "offered"
    · rw [if_pos hst]; exact h
    · rw [if_neg hst]
      push_neg at hst
      by_cases hdrv : r.driver_id ≠ d
      · rw [if_pos hdrv]; exact h
      · rw [if_neg hdrv]
        by_cases hexp : is_offer_expired env r.offer_expires_at now = true
        · rw [if_pos hexp]
          exact inv_set_declined (mark_declined st r.rootOf r.driver_id) jid
            (inv_mark st r.rootOf r.driver_id h)
        · rw [if_neg hexp]
          show Inv { st with jobs := setStatusById st.jobs jid "new" }
          rw [← hrid]
          exact inv_accept_new st r h hrmem hst

theorem inv_decline_offer (env : Env) (now : Nat) (st : St) (jid : Nat)
    (d : String) (h : Inv st) : Inv (decline_offer env now st jid d).2 := by
  unfold decline_offer
  cases hfind : st.jobs.find? (fun j => j.id == jid) with
  | none => exact h
  | some r =>
    dsimp only
    have hrmem : r ∈ st.jobs := List.mem_of_find?_eq_some hfind
    by_cases hst : r.status ≠ "offered"
    · rw [if_pos hst]; exact h
    · rw [if_neg hst]
      push_neg at hst
      by_cases hdrv : r.driver_id ≠ d
      · rw [if_pos hdrv]; exact h
      · rw [if_neg hdrv]
        push_neg at hdrv
        show Inv (declineCore env now st r d).2
        exact inv_declineCore env now st r d h hrmem hst hdrv

theorem filter_append_fresh (l : List Job) (jN : Job) (i : Nat) (hne : jN.id ≠ i) :
    (l ++ [jN]).filter (fun j => !(j.id == i)) =
      l.filter (fun j => !(j.id == i)) ++ [jN] := by
  rw [List.filter_append]
  congr 1
  simp [hne]

theorem inv_delete_job (env : Env) (now : Nat) (st : St) (jid : Nat)
    (h : Inv st) : Inv (delete_job env now st jid).2 := by
  unfold delete_job
  cases hfind : st.jobs.find? (fun j => j.id == jid) with
  | none => exact h
  | some r =>
    dsimp only
    have hrmem : r ∈ st.jobs := List.mem_of_find?_eq_some hfind
    have hrid : r.id = jid := by
      have := List.find?_some hfind
      simpa using this
    by_cases hcond : (r.status = "new" ∨ r.status = "accepted") ∧
        r.pickup_lat ≠ none ∧ r.pickup_lng ≠ none
    · rw [if_pos hcond]
      have hlr : live r = true := by
        rcases hcond.1 with h1 | h1
        · exact live_of_new h1
        · exact live_of_accepted h1
      have hInvM : Inv (mark_declined st r.rootOf r.driver_id) :=
        inv_mark st r.rootOf r.driver_id h
      have hcov' : ∀ x, (r.rootOf, x) ∈ st.offeredLog →
          (r.rootOf, x) ∈ (mark_declined st r.rootOf r.driver_id).declines := by
        intro x hx
        rcases h.log_cov (r.rootOf, x) hx with h1 | ⟨j, hj, hlive, hjroot, hjdrv⟩ | h3
        · exact mark_declined_mono st r.rootOf r.driver_id _ h1
        · have hjr : j = r := h.live_unique j hj r hrmem hlive hlr hjroot
          have hx2 : x = r.driver_id := by
            rw [← hjr]
            exact hjdrv.symm
          rw [hx2]
          exact mark_declined_self st r.rootOf r.driver_id
        · exfalso
          have := h3 r hrmem rfl
          rw [hlr] at this
          cases this
      rcases redistribute_shape env now (mark_declined st r.rootOf r.driver_id)
          r 120 50 180 with ⟨-, heq⟩ | ⟨pl, pg, b, -, -, hpick, -, heq⟩
      · rw [heq]
        exact inv_delete_row (mark_declined st r.rootOf r.driver_id) jid hInvM
      · rw [heq]
        have hjid_lt : jid < st.nextId := by
          rw [← hrid]
          exact h.id_lt r hrmem
        have hne' : (mark_declined st r.rootOf r.driver_id).nextId ≠ jid := by
          rw [mark_declined_nextId]
          intro hh
          rw [← hh] at hjid_lt
          exact Nat.lt_irrefl _ hjid_lt
        dsimp only
        rw [filter_append_fresh ((mark_declined st r.rootOf r.driver_id).jobs) _ jid hne']
        refine inv_insert_offered
          { mark_declined st r.rootOf r.driver_id with
            jobs := (mark_declined st r.rootOf r.driver_id).jobs.filter
              (fun j => !(j.id == jid)) }
          _ r.rootOf b.driver_id rfl rfl rfl rfl
          (inv_delete_row (mark_declined st r.rootOf r.driver_id) jid hInvM)
          ?_ ?_ ?_ ?_
        · show r.rootOf < (mark_declined st r.rootOf r.driver_id).nextId
          rw [mark_declined_nextId]
          exact h.root_lt r hrmem
        · intro hmem
          have hb := pick_not_excluded env now
            (mark_declined st r.rootOf r.driver_id).drivers pl pg _ _ _ b hpick
          have hmem' : (r.rootOf, b.driver_id) ∈ st.offeredLog := by
            rw [← mark_declined_log st r.rootOf r.driver_id]
            exact hmem
          exact hb ((mem_declinedIds (mark_declined st r.rootOf r.driver_id)
            r.rootOf b.driver_id).mpr (hcov' b.driver_id hmem'))
        · intro x hx
          have hx' : (r.rootOf, x) ∈ st.offeredLog := by
            rw [← mark_declined_log st r.rootOf r.driver_id]
            exact hx
          exact hcov' x hx'
        · intro j hj hjroot
          rcases List.mem_filter.mp hj with ⟨hjmem, hjpred⟩
          have hjmem' : j ∈ st.jobs := by
            rw [← mark_declined_jobs st r.rootOf r.driver_id]
            exact hjmem
          cases hl : live j
          · rfl
          · exfalso
            have hjr : j = r := h.live_unique j hjmem' r hrmem hl hlr hjroot
            rw [hjr, hrid] at hjpred
            simp at hjpred
    · rw [if_neg hcond]
      exact inv_delete_row st jid h

theorem inv_offersLoop (env : Env) (now : Nat) (rows : List Job) (st : St)
    (acc : List Job) (h : Inv st)
    (hrows : ∀ j ∈ rows, j ∈ st.jobs ∧ j.status = "offered")
    (hnd : (rows.map Job.id).Nodup) :
    Inv (offersLoop env now rows st acc).2 := by
  induction rows generalizing st acc with
  | nil => exact h
  | cons r rest ih =>
    rcases hrows r (List.mem_cons_self r rest) with ⟨hrmem, hroff⟩
    rw [List.map_cons, List.nodup_cons] at hnd
    unfold offersLoop
    by_cases hexp : is_offer_expired env r.offer_expires_at now = true
    · rw [if_pos hexp]
      refine ih (expireStep env now st r) acc ?_ ?_ hnd.2
      · exact inv_declineCore env now st r r.driver_id h hrmem hroff rfl
      · intro j hj
        rcases hrows j (List.mem_cons_of_mem r hj) with ⟨hjmem, hjoff⟩
        refine ⟨?_, hjoff⟩
        have hne : j.id ≠ r.id := by
          intro hh
          exact hnd.1 (by rw [← hh]; exact List.mem_map_of_mem Job.id hj)
        exact declineCore_preserves_other env now st r r.driver_id j hjmem hne
    · rw [if_neg hexp]
      exact ih st (r :: acc) h
        (fun j hj => hrows j (List.mem_cons_of_mem r hj)) hnd.2

theorem inv_get_offers (env : Env) (now : Nat) (st : St) (did : String)
    (h : Inv st) : Inv (get_offers env now st did).2 := by
  unfold get_offers
  refine inv_offersLoop env now _ st [] h ?_ ?_
  · intro j hj
    rcases List.mem_filter.mp hj with ⟨hmem, hcond⟩
    rw [Bool.and_eq_true] at hcond
    refine ⟨hmem, ?_⟩
    have := hcond.2
    simpa using this
  · exact List.Nodup.sublist (List.Sublist.map _ (List.filter_sublist _)) h.ids_nodup

theorem inv_init : Inv St.init :=
  ⟨List.nodup_nil, List.nodup_nil,
    fun j hj => absurd hj (List.not_mem_nil j),
    fun j hj => absurd hj (List.not_mem_nil j),
    fun p hp => absurd hp (List.not_mem_nil p),
    fun j hj => absurd hj (List.not_mem_nil j),
    fun p hp => absurd hp (List.not_mem_nil p)⟩

/-- Every reachable store satisfies the inductive invariant. -/
theorem reachable_inv (env : Env) (st : St) (h : Reachable env st) : Inv st := by
  induction h with
  | init => exact inv_init
  | update_location st now d la lo s _ ih => exact inv_update_location env now st d la lo s ih
  | register_push_token st now d tok _ ih => exact inv_register_push_token env now st d tok ih
  | create_job st now d cn a p c _ ih => exact inv_create_job env now st d cn a p c ih
  | send_job_auto st now pl pg cn a p c ma mr _ ih =>
      exact inv_send_job_auto env now st pl pg cn a p c ma mr ih
  | send_job_auto_offer st now pl pg cn a p c ma mr ttl _ ih =>
      exact inv_send_job_auto_offer env now st pl pg cn a p c ma mr ttl ih
  | get_offers st now d _ ih => exact inv_get_offers env now st d ih
  | accept_offer st now jid d _ ih => exact inv_accept_offer env now st jid d ih
  | decline_offer st now jid d _ ih => exact inv_decline_offer env now st jid d ih
  | delete_job st now jid _ ih => exact inv_delete_job env now st jid ih

/-! ### Claim theorems -/

/-- C1: in every store reachable through the API, the offer history
`offeredLog` (one entry per inserted `offered` row, keyed by
`(root_job_id, driver_id)`) has no duplicates — no driver is ever offered the
same root twice; the ledger entry of a declining/expiring/withdrawn driver is
recorded before the next selection runs (this ordering is what the inductive
invariant behind `reachable_inv` tracks), and the selection never returns a
driver in its exclusion list. -/
theorem c1_no_reoffer_same_root (env : Env) (st : St) (h : Reachable env st) :
    st.offeredLog.Nodup ∧
    ∀ (now : Nat) (drivers : List Driver) (pl pg : Rat) (ma : Nat) (mr : Rat)
      (ex : List String) (b : Pick),
      _pick_nearest_online_driver env now drivers pl pg ma mr ex = some b →
      b.driver_id ∉ ex :=
  ⟨(reachable_inv env st h).log_nodup,
    fun now drivers pl pg ma mr ex b hb =>
      pick_not_excluded env now drivers pl pg ma mr ex b hb⟩

/-- C1 witness: the reachable store `stW` (driver report then auto-offer)
has a duplicate-free offer history. -/
theorem c1_witness : stW.offeredLog.Nodup :=
  (c1_no_reoffer_same_root env0 stW
    (Reachable.send_job_auto_offer _ 100 0 0 "c" "a" "p" "" 120 50 180
      (Reachable.update_location St.init 50 "A" 1 0 "online" Reachable.init))).1

/-- C2: if the proximity selector returns a driver, that driver passed every
filter (online, not excluded, position present, fresh, in radius) and every
other driver passing all the filters is at distance ≥ the returned distance;
the selector returns `none` exactly when no driver passes the filters. -/
theorem c2_pick_nearest_optimal (env : Env) (now : Nat) (drivers : List Driver)
    (pl pg : Rat) (ma : Nat) (mr : Rat) (ex : List String) :
    (∀ b, _pick_nearest_online_driver env now drivers pl pg ma mr ex = some b →
      (∃ r ∈ drivers, eligibleDriver env now pl pg ma mr ex r = true ∧
        b.driver_id = r.id ∧ b.distance_km = driverDist env pl pg r) ∧
      ∀ r ∈ drivers, eligibleDriver env now pl pg ma mr ex r = true →
        driverDist env pl pg r ≥ b.distance_km) ∧
    (_pick_nearest_online_driver env now drivers pl pg ma mr ex = none ↔
      ∀ r ∈ drivers, eligibleDriver env now pl pg ma mr ex r = false) := by
  constructor
  · intro b hb
    rcases pick_some_spec env now drivers pl pg ma mr ex b hb with
      ⟨⟨r, hr, he, hbr⟩, hmin⟩
    refine ⟨⟨r, hr, he, ?_, ?_⟩, fun r' hr' he' => hmin r' hr' he'⟩
    · rw [hbr]; rfl
    · rw [hbr]; rfl
  · exact pick_eq_none_iff env now drivers pl pg ma mr ex

/-- C2 witness: with both `A` (distance 1) and `B` (distance 2) eligible the
selector returns `A` at distance 1, and the optimality part of the theorem
yields `1 ≤ dist(B)`. -/
theorem c2_witness :
    _pick_nearest_online_driver env0 100 [drvA, drvB] 0 0 120 50 [] =
      some { driver_id := "A", distance_km := 1, updated_at := some "t" } ∧
    (1 : Rat) ≤ driverDist env0 0 0 drvB := by
  have hp : _pick_nearest_online_driver env0 100 [drvA, drvB] 0 0 120 50 [] =
      some { driver_id := "A", distance_km := 1, updated_at := some "t" } := by
    decide
  refine ⟨hp, ?_⟩
  have hmin := ((c2_pick_nearest_optimal env0 100 [drvA, drvB] 0 0 120 50 []).1
    _ hp).2 drvB (by decide) (by decide)
  exact hmin

theorem is_offer_expired_some (env : Env) (s : String) (now e : Nat)
    (he : env.parseIso s = some e) :
    is_offer_expired env (some s) now = decide (now > e) := by
  unfold is_offer_expired
  dsimp only
  rw [he]

theorem accept_offer_some (env : Env) (now : Nat) (st : St) (jid : Nat)
    (d : String) (r : Job)
    (hf : st.jobs.find? (fun j => j.id == jid) = some r) :
    accept_offer env now st jid d =
      (if r.status ≠ "offered" then (.error .conflict, st)
       else if r.driver_id ≠ d then (.error .forbidden, st)
       else if is_offer_expired env r.offer_expires_at now then
         (.error .expired,
           { mark_declined st r.rootOf r.driver_id with
             jobs := setStatusById (mark_declined st r.rootOf r.driver_id).jobs
               jid "declined" })
       else (.ok (), { st with jobs := setStatusById st.jobs jid "new" })) := by
  unfold accept_offer
  rw [hf]

/-- C4: `accept` succeeds exactly when the job exists, is `offered`, is
assigned to the calling driver, and `now ≤ offer_expiry`; on success the row
becomes `new` with the expiry cleared; an unknown job is NotFound (404), a
non-offered row Conflict (409), a foreign row Forbidden (403), and a passed
deadline Expired (410), an error distinct from Conflict. -/
theorem c4_accept_semantics (env : Env) (now : Nat) (st : St) (jid : Nat)
    (d : String) :
    (st.jobs.find? (fun j => j.id == jid) = none →
      accept_offer env now st jid d = (.error .notFound, st)) ∧
    (∀ r, st.jobs.find? (fun j => j.id == jid) = some r →
      (r.status ≠ "offered" →
        accept_offer env now st jid d = (.error .conflict, st)) ∧
      (r.status = "offered" → r.driver_id ≠ d →
        accept_offer env now st jid d = (.error .forbidden, st)) ∧
      (∀ s e, r.offer_expires_at = some s → env.parseIso s = some e →
        ((accept_offer env now st jid d).1 = .ok () ↔
          r.status = "offered" ∧ r.driver_id = d ∧ now ≤ e)) ∧
      (r.status = "offered" → r.driver_id = d →
        is_offer_expired env r.offer_expires_at now = true →
        (accept_offer env now st jid d).1 = .error .expired) ∧
      (r.status = "offered" → r.driver_id = d →
        is_offer_expired env r.offer_expires_at now = false →
        accept_offer env now st jid d =
          (.ok (), { st with jobs := setStatusById st.jobs jid "new" }))) ∧
    Err.expired ≠ Err.conflict := by
  refine ⟨?_, ?_, by intro hh; cases hh⟩
  · intro hf
    unfold accept_offer
    rw [hf]
  · intro r hf
    refine ⟨?_, ?_, ?_, ?_, ?_⟩
    · intro hst
      rw [accept_offer_some env now st jid d r hf, if_pos hst]
    · intro hst hdrv
      rw [accept_offer_some env now st jid d r hf,
        if_neg (by simp [hst]), if_pos hdrv]
    · intro s e hs he
      by_cases hst : r.status = "offered"
      · by_cases hdrv : r.driver_id = d
        · by_cases hexp : is_offer_expired env r.offer_expires_at now = true
          · rw [accept_offer_some env now st jid d r hf,
              if_neg (by simp [hst]), if_neg (by simp [hdrv]), if_pos hexp]
            rw [hs, is_offer_expired_some env s now e he] at hexp
            simp only [decide_eq_true_eq] at hexp
            constructor
            · intro hh; cases hh
            · rintro ⟨-, -, hle⟩
              exact absurd hexp (not_lt.mpr hle)
          · rw [accept_offer_some env now st jid d r hf,
              if_neg (by simp [hst]), if_neg (by simp [hdrv]), if_neg hexp]
            rw [hs, is_offer_expired_some env s now e he] at hexp
            simp only [decide_eq_true_eq, not_lt] at hexp
            simp [hst, hdrv, hexp]
        · rw [accept_offer_some env now st jid d r hf,
            if_neg (by simp [hst]), if_pos hdrv]
          simp [hdrv]
      · rw [accept_offer_some env now st jid d r hf, if_pos hst]
        simp [hst]
    · intro hst hdrv hexp
      rw [accept_offer_some env now st jid d r hf,
        if_neg (by simp [hst]), if_neg (by simp [hdrv]), if_pos hexp]
    · intro hst hdrv hexp
      rw [accept_offer_some env now st jid d r hf,
        if_neg (by simp [hst]), if_neg (by simp [hdrv]),
        if_neg (by rw [hexp]; intro hh; cases hh)]

/-- C4 witness: accepting `job0` (deadline 100) at time 100 succeeds and
turns the row `new` with the expiry cleared. -/
theorem c4_witness :
    accept_offer env0 100 stC3 0 "A" =
      (.ok (), { stC3 with jobs := setStatusById stC3.jobs 0 "new" }) :=
  (((c4_accept_semantics env0 100 stC3 0 "A").2.1 job0
    (by decide)).2.2.2.2) (by decide) (by decide) (by decide)

/-- C9: registering a push token for a known driver changes only the
`expo_push_token` field (position, status and `updated_at` are carried over
unchanged, and no row is added or removed); an unknown driver is created at
the neutral position `(0, 0)`, `offline`, with the given token. -/
theorem c9_register_token_frame (env : Env) (now : Nat) (st : St)
    (did tok : String) :
    ((st.drivers.any (fun r => r.id == did)) = true →
      (∀ r ∈ st.drivers, r.id ≠ did →
        r ∈ (register_push_token env now st did tok).drivers) ∧
      (∀ r ∈ st.drivers, r.id = did →
        ({ r with expo_push_token := some tok } : Driver) ∈
          (register_push_token env now st did tok).drivers) ∧
      (register_push_token env now st did tok).drivers.length =
        st.drivers.length) ∧
    ((st.drivers.any (fun r => r.id == did)) = false →
      (register_push_token env now st did tok).drivers =
        st.drivers ++
          [{ id := did, latitude := some 0, longitude := some 0
             status := "offline", updated_at := some (env.printIso now)
             expo_push_token := some tok }]) := by
  constructor
  · intro hany
    unfold register_push_token
    rw [if_pos hany]
    refine ⟨?_, ?_, ?_⟩
    · intro r hr hne
      have hid : (fun r : Driver =>
          if r.id == did then { r with expo_push_token := some tok } else r) r = r := by
        simp [hne]
      exact hid ▸ List.mem_map_of_mem _ hr
    · intro r hr heq
      have hid : (fun r : Driver =>
          if r.id == did then { r with expo_push_token := some tok } else r) r =
          { r with expo_push_token := some tok } := by
        simp [heq]
      exact hid ▸ List.mem_map_of_mem _ hr
    · exact List.length_map _ _
  · intro hany
    unfold register_push_token
    rw [if_neg (by rw [hany]; exact Bool.false_ne_true)]

/-- C9 witness: the update branch keeps `drvA`'s fields, only setting the
token; the insert branch creates the neutral offline record. -/
theorem c9_witness :
    ({ drvA with expo_push_token := some "tok" } : Driver) ∈
      (register_push_token env0 100 stC3 "A" "tok").drivers ∧
    (register_push_token env0 100 { stC3 with drivers := [] } "A" "tok").drivers =
      [{ id := "A", latitude := some 0, longitude := some 0, status := "offline"
         updated_at := some "t", expo_push_token := some "tok" }] := by
  constructor
  · exact ((c9_register_token_frame env0 100 stC3 "A" "tok").1 (by decide)).2.1
      drvA (by decide) rfl
  · have h := (c9_register_token_frame env0 100 { stC3 with drivers := [] }
      "A" "tok").2 (by decide)
    simpa using h

theorem is_offer_expired_false_of_unparseable (env : Env) (now : Nat)
    (o : Option String)
    (h : o = none ∨ ∃ s, o = some s ∧ env.parseIso s = none) :
    is_offer_expired env o now = false := by
  rcases h with h | ⟨s, hs, hp⟩
  · rw [h]; rfl
  · rw [hs]
    unfold is_offer_expired
    dsimp only
    rw [hp]

theorem offersLoop_mem_acc (env : Env) (now : Nat) (rows : List Job) (st : St)
    (acc : List Job) (j : Job) (hj : j ∈ acc) :
    j ∈ (offersLoop env now rows st acc).1 := by
  induction rows generalizing st acc with
  | nil =>
    show j ∈ acc.reverse
    exact List.mem_reverse.mpr hj
  | cons r rest ih =>
    unfold offersLoop
    by_cases hexp : is_offer_expired env r.offer_expires_at now = true
    · rw [if_pos hexp]
      exact ih _ _ hj
    · rw [if_neg hexp]
      exact ih _ _ (List.mem_cons_of_mem r hj)

theorem offersLoop_preserves_mem (env : Env) (now : Nat) (rows : List Job)
    (st : St) (acc : List Job) (j : Job) (hmem : j ∈ st.jobs)
    (hne : ∀ r ∈ rows, r.id ≠ j.id) :
    j ∈ (offersLoop env now rows st acc).2.jobs := by
  induction rows generalizing st acc with
  | nil => exact hmem
  | cons r rest ih =>
    unfold offersLoop
    by_cases hexp : is_offer_expired env r.offer_expires_at now = true
    · rw [if_pos hexp]
      refine ih _ _ ?_ (fun r' hr' => hne r' (List.mem_cons_of_mem r hr'))
      exact declineCore_preserves_other env now st r r.driver_id j hmem
        (fun hh => hne r (List.mem_cons_self r rest) hh.symm)
    · rw [if_neg hexp]
      exact ih _ _ hmem (fun r' hr' => hne r' (List.mem_cons_of_mem r hr'))

theorem offersLoop_collect (env : Env) (now : Nat) (rows : List Job) (st : St)
    (acc : List Job) (j : Job) (hj : j ∈ rows)
    (hexpj : is_offer_expired env j.offer_expires_at now = false)
    (hmem : j ∈ st.jobs) (hnd : (rows.map Job.id).Nodup) :
    j ∈ (offersLoop env now rows st acc).1 ∧
      j ∈ (offersLoop env now rows st acc).2.jobs := by
  induction rows generalizing st acc with
  | nil => cases hj
  | cons r rest ih =>
    rw [List.map_cons, List.nodup_cons] at hnd
    unfold offersLoop
    rcases List.mem_cons.mp hj with hjr | hjrest
    · rw [hjr] at hexpj hmem ⊢
      rw [if_neg (by rw [hexpj]; exact Bool.false_ne_true)]
      constructor
      · exact offersLoop_mem_acc env now rest st (r :: acc) r
          (List.mem_cons_self r acc)
      · refine offersLoop_preserves_mem env now rest st (r :: acc) r hmem ?_
        intro r' hr' hh
        exact hnd.1 (by rw [← hh]; exact List.mem_map_of_mem Job.id hr')
    · by_cases hexp : is_offer_expired env r.offer_expires_at now = true
      · rw [if_pos hexp]
        refine ih _ _ hjrest ?_ hnd.2
        have hne : j.id ≠ r.id := by
          intro hh
          exact hnd.1 (by rw [← hh]; exact List.mem_map_of_mem Job.id hjrest)
        exact declineCore_preserves_other env now st r r.driver_id j hmem hne
      · rw [if_neg hexp]
        exact ih _ _ hjrest hmem hnd.2

/-- C10: a NULL or unparseable `offer_expires_at` never counts as expired:
the expiry check returns `false`, accept takes the success branch (not the
expired one) when its other preconditions hold, and the driver's offers
listing keeps returning the row, never auto-declining it. -/
theorem c10_unparseable_never_expires (env : Env) (now : Nat) :
    (is_offer_expired env none now = false) ∧
    (∀ s, env.parseIso s = none → is_offer_expired env (some s) now = false) ∧
    (∀ (st : St) (jid : Nat) (d : String) (r : Job),
      st.jobs.find? (fun j => j.id == jid) = some r →
      r.status = "offered" → r.driver_id = d →
      (r.offer_expires_at = none ∨
        ∃ s, r.offer_expires_at = some s ∧ env.parseIso s = none) →
      accept_offer env now st jid d =
        (.ok (), { st with jobs := setStatusById st.jobs jid "new" })) ∧
    (∀ (st : St) (d : String) (r : Job), (st.jobs.map Job.id).Nodup →
      r ∈ st.jobs → r.driver_id = d → r.status = "offered" →
      (r.offer_expires_at = none ∨
        ∃ s, r.offer_expires_at = some s ∧ env.parseIso s = none) →
      r ∈ (get_offers env now st d).1 ∧ r ∈ (get_offers env now st d).2.jobs) := by
  refine ⟨rfl, ?_, ?_, ?_⟩
  · intro s hs
    exact is_offer_expired_false_of_unparseable env now (some s) (Or.inr ⟨s, rfl, hs⟩)
  · intro st jid d r hf hst hdrv hun
    have hexp := is_offer_expired_false_of_unparseable env now r.offer_expires_at hun
    rw [accept_offer_some env now st jid d r hf,
      if_neg (by simp [hst]), if_neg (by simp [hdrv]),
      if_neg (by rw [hexp]; exact Bool.false_ne_true)]
  · intro st d r hids hmem hdrv hst hun
    have hexp := is_offer_expired_false_of_unparseable env now r.offer_expires_at hun
    unfold get_offers
    refine offersLoop_collect env now _ st [] r ?_ hexp hmem ?_
    · refine List.mem_filter.mpr ⟨hmem, ?_⟩
      rw [Bool.and_eq_true]
      exact ⟨by simp [hdrv], by simp [hst]⟩
    · exact List.Nodup.sublist (List.Sublist.map _ (List.filter_sublist _)) hids

/-- C10 witness: the offer with the unparseable expiry `"bad"` is accepted
normally at any time and keeps showing up in the offers listing. -/
theorem c10_witness :
    accept_offer env0 100 stC10 0 "A" =
      (.ok (), { stC10 with jobs := setStatusById stC10.jobs 0 "new" }) ∧
    job0bad ∈ (get_offers env0 100 stC10 "A").1 := by
  constructor
  · exact (c10_unparseable_never_expires env0 100).2.2.1 stC10 0 "A" job0bad
      (by decide) rfl rfl (Or.inr ⟨"bad", rfl, by decide⟩)
  · exact ((c10_unparseable_never_expires env0 100).2.2.2 stC10 "A" job0bad
      (by decide) (by decide) rfl rfl (Or.inr ⟨"bad", rfl, by decide⟩)).1

theorem decline_offer_some (env : Env) (now : Nat) (st : St) (jid : Nat)
    (d : String) (r : Job)
    (hf : st.jobs.find? (fun j => j.id == jid) = some r) :
    decline_offer env now st jid d =
      (if r.status ≠ "offered" then (.error .conflict, st)
       else if r.driver_id ≠ d then (.error .forbidden, st)
       else (.ok (declineCore env now st r d).1, (declineCore env now st r d).2)) := by
  unfold decline_offer
  rw [hf]

theorem decline_ok_inv (env : Env) (now : Nat) (st : St) (jid : Nat)
    (d : String) (o : Option Redis) (st1 : St)
    (h : decline_offer env now st jid d = (.ok o, st1)) :
    ∃ r, st.jobs.find? (fun j => j.id == jid) = some r ∧
      r.status = "offered" ∧ r.driver_id = d ∧
      o = (declineCore env now st r d).1 ∧
      st1 = (declineCore env now st r d).2 := by
  cases hf : st.jobs.find? (fun j => j.id == jid) with
  | none =>
    unfold decline_offer at h
    rw [hf] at h
    exact Except.noConfusion (congrArg Prod.fst h)
  | some r =>
    rw [decline_offer_some env now st jid d r hf] at h
    by_cases hst : r.status ≠ "offered"
    · rw [if_pos hst] at h
      exact Except.noConfusion (congrArg Prod.fst h)
    · rw [if_neg hst] at h
      push_neg at hst
      by_cases hdrv : r.driver_id ≠ d
      · rw [if_pos hdrv] at h
        exact Except.noConfusion (congrArg Prod.fst h)
      · rw [if_neg hdrv] at h
        push_neg at hdrv
        refine ⟨r, rfl, hst, hdrv, ?_, (congrArg Prod.snd h).symm⟩
        have h1 := congrArg Prod.fst h
        simp only at h1
        injection h1 with h2
        exact h2.symm

theorem declineCore_find_declined (env : Env) (now : Nat) (st : St) (r : Job)
    (d : String) (hf : st.jobs.find? (fun j => j.id == r.id) = some r) :
    (declineCore env now st r d).2.jobs.find? (fun j => j.id == r.id) =
      some { r with status := "declined", offer_expires_at := none } := by
  rw [declineCore_eq]
  have hmap : (setStatusById (mark_declined st r.rootOf d).jobs r.id
      "declined").find? (fun j => j.id == r.id) =
      some { r with status := "declined", offer_expires_at := none } := by
    rw [mark_declined_jobs]
    unfold setStatusById
    rw [find?_id_map _ (fun j => by split <;> rfl) st.jobs r.id]
    rw [hf]
    simp
  rcases redistribute_shape env now
      { mark_declined st r.rootOf d with
        jobs := setStatusById (mark_declined st r.rootOf d).jobs r.id "declined" }
      r 120 50 180 with ⟨-, heq⟩ | ⟨pl, pg, b, -, -, -, -, heq⟩
  · rw [heq]
    exact hmap
  · rw [heq]
    exact find?_append_left hmap

/-- C8: after a successful decline, a second decline or an accept of the
same job returns Conflict and leaves the store exactly as it was (so no
duplicate ledger entry and no second redistribution), and a call naming an
unknown job returns NotFound, also leaving the store unchanged. -/
theorem c8_second_call_is_noop (env : Env) (now now2 : Nat) (st : St)
    (jid : Nat) (d d2 : String) (o : Option Redis) (st1 : St)
    (h : decline_offer env now st jid d = (.ok o, st1)) :
    decline_offer env now2 st1 jid d2 = (.error .conflict, st1) ∧
    accept_offer env now2 st1 jid d2 = (.error .conflict, st1) ∧
    ∀ jid2, st1.jobs.find? (fun j => j.id == jid2) = none →
      decline_offer env now2 st1 jid2 d2 = (.error .notFound, st1) ∧
      accept_offer env now2 st1 jid2 d2 = (.error .notFound, st1) := by
  rcases decline_ok_inv env now st jid d o st1 h with ⟨r, hf, hst, hdrv, ho, hst1⟩
  have hrid : r.id = jid := by
    have := List.find?_some hf
    simpa using this
  have hf1 : st1.jobs.find? (fun j => j.id == jid) =
      some { r with status := "declined", offer_expires_at := none } := by
    rw [hst1, ← hrid]
    refine declineCore_find_declined env now st r d ?_
    rw [hrid]
    exact hf
  have hne : ¬ (({ r with status := "declined", offer_expires_at := none } :
      Job).status = "offered") := by
    intro hh
    exact (by decide : ("declined" : String) ≠ "offered") hh
  refine ⟨?_, ?_, ?_⟩
  · rw [decline_offer_some env now2 st1 jid d2 _ hf1, if_pos hne]
  · rw [accept_offer_some env now2 st1 jid d2 _ hf1, if_pos hne]
  · intro jid2 hnone
    constructor
    · unfold decline_offer
      rw [hnone]
    · unfold accept_offer
      rw [hnone]

/-- C8 witness: declining the root offer of `stC5` succeeds (redistributing
it to `B`); the immediate second decline of the same job id is a Conflict
that returns the stored state untouched. -/
theorem c8_witness :
    decline_offer env0 300 (decline_offer env0 200 stC5 0 "A").2 0 "A" =
      (.error .conflict, (decline_offer env0 200 stC5 0 "A").2) :=
  (c8_second_call_is_noop env0 200 300 stC5 0 "A" "A"
    (some { new_offer_job_id := 1, chosen_driver_id := "B", distance_km := 2
            driver_updated_at := some "t", root_job_id := 0 })
    (decline_offer env0 200 stC5 0 "A").2 (by decide)).1

/-- C6: a legal decline records the `(root_id, driver)` ledger entry, turns
the row `declined` with the expiry cleared, reports success, and — when the
re-selection run against the accumulated decline set finds a candidate —
inserts one new row with a fresh id, the same `root_job_id`, status
`offered`, a fresh `now + 180` expiry, the chosen (never-declined) driver,
and the customer and pickup data copied from the declined row. -/
theorem c6_decline_redistributes (env : Env) (now : Nat) (st : St) (jid : Nat)
    (d : String) (r : Job)
    (hf : st.jobs.find? (fun j => j.id == jid) = some r)
    (hst : r.status = "offered") (hdrv : r.driver_id = d)
    (hlt : ∀ j ∈ st.jobs, j.id < st.nextId) :
    decline_offer env now st jid d =
      (.ok (declineCore env now st r d).1, (declineCore env now st r d).2) ∧
    (r.rootOf, d) ∈ (declineCore env now st r d).2.declines ∧
    (∀ j ∈ (declineCore env now st r d).2.jobs, j.id = r.id →
      j.status = "declined" ∧ j.offer_expires_at = none) ∧
    (∀ b, (declineCore env now st r d).1 = some b →
      b.chosen_driver_id ∉
        get_declined_driver_ids (mark_declined st r.rootOf d) r.rootOf ∧
      ∃ jN ∈ (declineCore env now st r d).2.jobs,
        jN.id = st.nextId ∧ jN.root_job_id = some r.rootOf ∧
        jN.status = "offered" ∧ jN.driver_id = b.chosen_driver_id ∧
        jN.offer_expires_at = some (env.printIso (now + 180)) ∧
        jN.customer_name = r.customer_name ∧ jN.address = r.address ∧
        jN.phone = r.phone ∧ jN.comment = r.comment ∧
        jN.pickup_lat = r.pickup_lat ∧ jN.pickup_lng = r.pickup_lng) := by
  refine ⟨?_, declineCore_declines_self env now st r d,
    declineCore_row_declined env now st r d hlt (List.mem_of_find?_eq_some hf),
    ?_⟩
  · rw [decline_offer_some env now st jid d r hf,
      if_neg (by simp [hst]), if_neg (by simp [hdrv])]
  · intro b hb
    rw [declineCore_eq] at hb ⊢
    rcases redistribute_shape env now
        { mark_declined st r.rootOf d with
          jobs := setStatusById (mark_declined st r.rootOf d).jobs r.id "declined" }
        r 120 50 180 with ⟨hnone, -⟩ | ⟨pl, pg, bp, hpl, hpg, hpick, hredis, heq⟩
    · rw [hb] at hnone
      cases hnone
    · have hbval : b =
          { new_offer_job_id := (mark_declined st r.rootOf d).nextId
            chosen_driver_id := bp.driver_id
            distance_km := bp.distance_km
            driver_updated_at := bp.updated_at
            root_job_id := r.rootOf } := by
        rw [hredis] at hb
        injection hb with hb'
        exact hb'.symm
      constructor
      · rw [hbval]
        exact pick_not_excluded env now _ pl pg _ _ _ bp hpick
      · rw [heq]
        refine ⟨_, List.mem_append.mpr (Or.inr (List.mem_singleton.mpr rfl)),
          ?_, rfl, rfl, by rw [hbval], by rfl, rfl, rfl, rfl, rfl,
          by rw [hpl], by rw [hpg]⟩
        show (mark_declined st r.rootOf d).nextId = st.nextId
        exact mark_declined_nextId st r.rootOf d

/-- C6 witness: declining `stC5`'s offer as `A` ledger-records `(0, A)` and
inserts the redistribution row for driver `B` with root 0. -/
theorem c6_witness :
    (job0exp.rootOf, "A") ∈ (declineCore env0 200 stC5 job0exp "A").2.declines ∧
    decline_offer env0 200 stC5 0 "A" =
      (.ok (declineCore env0 200 stC5 job0exp "A").1,
        (declineCore env0 200 stC5 job0exp "A").2) := by
  have h := c6_decline_redistributes env0 200 stC5 0 "A" job0exp
    (by decide) rfl rfl (by decide)
  exact ⟨h.2.1, h.1⟩

/-- C3 counterexample: with only driver `A` online, `A`'s decline exhausts
the candidate pool; the call reports success with `redistributed = none`,
but no job row with status `"unassigned"` exists anywhere in the resulting
store — the code never writes that status, contradicting the claim that the
chain ends in a row with status `unassigned`. -/
theorem c3_counterexample :
    (decline_offer env0 100 stC3 0 "A").1 = .ok none ∧
    ∀ j ∈ (decline_offer env0 100 stC3 0 "A").2.jobs,
      j.status ≠ "unassigned" := by
  decide

/-- C3 (amended): when a decline's redistribution finds no candidate, the
chain terminates with the declined row kept in status `declined` (no row is
inserted, and no row with status `unassigned` ever appears — the code has no
such status; the exhausted outcome is the success response with
`redistributed = none`). -/
theorem c3_no_candidate_terminal (env : Env) (now : Nat) (st : St) (jid : Nat)
    (d : String) (r : Job)
    (hf : st.jobs.find? (fun j => j.id == jid) = some r)
    (hst : r.status = "offered") (hdrv : r.driver_id = d)
    (hclean : ∀ j ∈ st.jobs, j.status ≠ "unassigned") :
    (∃ o, (decline_offer env now st jid d).1 = .ok o) ∧
    (∀ j ∈ (decline_offer env now st jid d).2.jobs, j.status ≠ "unassigned") ∧
    ((decline_offer env now st jid d).1 = .ok none →
      (decline_offer env now st jid d).2.jobs.length = st.jobs.length) := by
  rw [decline_offer_some env now st jid d r hf,
    if_neg (by simp [hst]), if_neg (by simp [hdrv])]
  have hclean2 : ∀ j ∈ setStatusById (mark_declined st r.rootOf d).jobs r.id
      "declined", j.status ≠ "unassigned" := by
    intro j hj
    rcases mem_setStatusById _ r.id "declined" j hj with ⟨j0, hj0, heqj⟩
    rw [mark_declined_jobs] at hj0
    by_cases h0 : j0.id = r.id
    · rw [if_pos (beq_iff_eq.mpr h0)] at heqj
      rw [heqj]
      exact fun hh => (by decide : ("declined" : String) ≠ "unassigned") hh
    · rw [if_neg (by simpa using h0)] at heqj
      rw [heqj]
      exact hclean j0 hj0
  refine ⟨⟨(declineCore env now st r d).1, rfl⟩, ?_, ?_⟩
  · rw [declineCore_eq]
    rcases redistribute_shape env now
        { mark_declined st r.rootOf d with
          jobs := setStatusById (mark_declined st r.rootOf d).jobs r.id "declined" }
        r 120 50 180 with ⟨-, heq⟩ | ⟨pl, pg, bp, -, -, -, -, heq⟩
    · rw [heq]
      exact hclean2
    · rw [heq]
      intro j hj
      rcases List.mem_append.mp hj with hj' | hj'
      · exact hclean2 j hj'
      · rw [List.mem_singleton.mp hj']
        exact fun hh => (by decide : ("offered" : String) ≠ "unassigned") hh
  · intro hnone
    rw [declineCore_eq] at hnone ⊢
    rcases redistribute_shape env now
        { mark_declined st r.rootOf d with
          jobs := setStatusById (mark_declined st r.rootOf d).jobs r.id "declined" }
        r 120 50 180 with ⟨-, heq⟩ | ⟨pl, pg, bp, -, -, -, hredis, -⟩
    · rw [heq]
      show (setStatusById (mark_declined st r.rootOf d).jobs r.id
        "declined").length = st.jobs.length
      unfold setStatusById
      rw [List.length_map, mark_declined_jobs]
    · simp only at hnone
      rw [hredis] at hnone
      cases hnone

/-- C3 witness: on the concrete one-driver store the no-candidate decline
keeps the job count unchanged (the declined row is the chain's end). -/
theorem c3_witness :
    (decline_offer env0 100 stC3 0 "A").2.jobs.length = stC3.jobs.length :=
  (c3_no_candidate_terminal env0 100 stC3 0 "A" job0 (by decide) rfl rfl
    (by decide)).2.2 (by decide)

/-- C5 counterexample: in `stC5` the offer to `A` is expired and `B` is an
eligible, non-ledgered candidate, yet the expiry detected by `accept`
produces no new `offered` row at all — the accept path does not trigger the
redistribution that the decline path would run, refuting the claim that all
three detection paths redistribute identically. -/
theorem c5_counterexample :
    (accept_offer env0 200 stC5 0 "A").1 = .error .expired ∧
    (accept_offer env0 200 stC5 0 "A").2.jobs.length = 1 ∧
    (∀ j ∈ (accept_offer env0 200 stC5 0 "A").2.jobs, j.status ≠ "offered") ∧
    _pick_nearest_online_driver env0 200
      (accept_offer env0 200 stC5 0 "A").2.drivers 0 0 120 50
      (get_declined_driver_ids (accept_offer env0 200 stC5 0 "A").2 0) =
      some { driver_id := "B", distance_km := 2, updated_at := some "t" } := by
  decide

/-- C5 (amended): an expiry detected while reading the driver's offers
performs exactly the decline-path transition (`declineCore`: ledger entry,
row `declined`, redistribution), and so does the explicit decline; but an
expiry detected on an attempted accept only records the ledger entry and
declines the row — it inserts no new row, i.e. it does not redistribute. -/
theorem c5_expiry_paths (env : Env) (now : Nat) (st : St) (jid : Nat)
    (d : String) (r : Job) :
    (st.jobs.find? (fun j => j.id == jid) = some r → r.status = "offered" →
      r.driver_id = d →
      is_offer_expired env r.offer_expires_at now = true →
      accept_offer env now st jid d =
        (.error .expired,
          { mark_declined st r.rootOf r.driver_id with
            jobs := setStatusById (mark_declined st r.rootOf r.driver_id).jobs
              jid "declined" }) ∧
      (accept_offer env now st jid d).2.jobs.length = st.jobs.length ∧
      (r.rootOf, r.driver_id) ∈ (accept_offer env now st jid d).2.declines) ∧
    (st.jobs.filter (fun j => j.driver_id == d && j.status == "offered") = [r] →
      is_offer_expired env r.offer_expires_at now = true →
      (get_offers env now st d).2 = (declineCore env now st r r.driver_id).2) ∧
    (st.jobs.find? (fun j => j.id == jid) = some r → r.status = "offered" →
      r.driver_id = d →
      (decline_offer env now st jid d).2 = (declineCore env now st r d).2) := by
  refine ⟨?_, ?_, ?_⟩
  · intro hf hst hdrv hexp
    have hacc : accept_offer env now st jid d =
        (.error .expired,
          { mark_declined st r.rootOf r.driver_id with
            jobs := setStatusById (mark_declined st r.rootOf r.driver_id).jobs
              jid "declined" }) := by
      rw [accept_offer_some env now st jid d r hf,
        if_neg (by simp [hst]), if_neg (by simp [hdrv]), if_pos hexp]
    refine ⟨hacc, ?_, ?_⟩
    · rw [hacc]
      show (setStatusById (mark_declined st r.rootOf r.driver_id).jobs jid
        "declined").length = st.jobs.length
      unfold setStatusById
      rw [List.length_map, mark_declined_jobs]
    · rw [hacc]
      exact mark_declined_self st r.rootOf r.driver_id
  · intro hfilter hexp
    unfold get_offers
    rw [hfilter]
    unfold offersLoop
    rw [if_pos hexp]
    rfl
  · intro hf hst hdrv
    rw [decline_offer_some env now st jid d r hf,
      if_neg (by simp [hst]), if_neg (by simp [hdrv])]

/-- C5 witness: the accept-detected expiry of `stC5`'s offer records the
`(0, A)` ledger entry (while, per the counterexample, inserting nothing). -/
theorem c5_witness :
    (job0exp.rootOf, job0exp.driver_id) ∈
      (accept_offer env0 200 stC5 0 "A").2.declines :=
  ((c5_expiry_paths env0 200 stC5 0 "A" job0exp).1 (by decide) rfl rfl
    (by decide)).2.2

/-! ### The Expiry Sweeper (modelled from the spec) -/

theorem declineCore_id_lt (env : Env) (now : Nat) (st : St) (r : Job)
    (d : String) (hlt : ∀ j ∈ st.jobs, j.id < st.nextId) :
    ∀ j ∈ (declineCore env now st r d).2.jobs,
      j.id < (declineCore env now st r d).2.nextId := by
  rw [declineCore_eq]
  have hbase : ∀ j ∈ setStatusById (mark_declined st r.rootOf d).jobs r.id
      "declined", j.id < st.nextId := by
    intro j hj
    rcases mem_setStatusById _ r.id "declined" j hj with ⟨j0, hj0, heqj⟩
    rw [mark_declined_jobs] at hj0
    have hid : j.id = j0.id := by rw [heqj]; split <;> rfl
    rw [hid]
    exact hlt j0 hj0
  rcases redistribute_shape env now
      { mark_declined st r.rootOf d with
        jobs := setStatusById (mark_declined st r.rootOf d).jobs r.id "declined" }
      r 120 50 180 with ⟨-, heq⟩ | ⟨pl, pg, bp, -, -, -, -, heq⟩
  · rw [heq]
    intro j hj
    show j.id < (mark_declined st r.rootOf d).nextId
    rw [mark_declined_nextId]
    exact hbase j hj
  · rw [heq]
    intro j hj
    show j.id < (mark_declined st r.rootOf d).nextId + 1
    rcases List.mem_append.mp hj with hj' | hj'
    · rw [mark_declined_nextId]
      exact Nat.lt_succ_of_lt (hbase j hj')
    · rw [List.mem_singleton.mp hj']
      exact Nat.lt_succ_self _

theorem declineCore_preserves_declined_id (env : Env) (now : Nat) (st : St)
    (r : Job) (d : String) (i : Nat) (hi : i < st.nextId)
    (hall : ∀ j ∈ st.jobs, j.id = i → j.status = "declined") :
    ∀ j ∈ (declineCore env now st r d).2.jobs, j.id = i →
      j.status = "declined" := by
  rw [declineCore_eq]
  have hbase : ∀ j ∈ setStatusById (mark_declined st r.rootOf d).jobs r.id
      "declined", j.id = i → j.status = "declined" := by
    intro j hj hid
    rcases mem_setStatusById _ r.id "declined" j hj with ⟨j0, hj0, heqj⟩
    rw [mark_declined_jobs] at hj0
    by_cases h0 : j0.id = r.id
    · rw [if_pos (beq_iff_eq.mpr h0)] at heqj
      rw [heqj]
    · rw [if_neg (by simpa using h0)] at heqj
      rw [heqj] at hid ⊢
      exact hall j0 hj0 hid
  rcases redistribute_shape env now
      { mark_declined st r.rootOf d with
        jobs := setStatusById (mark_declined st r.rootOf d).jobs r.id "declined" }
      r 120 50 180 with ⟨-, heq⟩ | ⟨pl, pg, bp, -, -, -, -, heq⟩
  · rw [heq]
    exact hbase
  · rw [heq]
    intro j hj hid
    rcases List.mem_append.mp hj with hj' | hj'
    · exact hbase j hj' hid
    · exfalso
      have hjid : j.id = (mark_declined st r.rootOf d).nextId := by
        rw [List.mem_singleton.mp hj']
      rw [mark_declined_nextId, hid] at hjid
      rw [hjid] at hi
      exact Nat.lt_irrefl _ hi

theorem declineCore_exists_id (env : Env) (now : Nat) (st : St) (r : Job)
    (d : String) (i : Nat) (h : ∃ k ∈ st.jobs, k.id = i) :
    ∃ k ∈ (declineCore env now st r d).2.jobs, k.id = i := by
  rcases h with ⟨k, hk, hki⟩
  rw [declineCore_eq]
  have hbase : ∃ k' ∈ setStatusById (mark_declined st r.rootOf d).jobs r.id
      "declined", k'.id = i := by
    refine ⟨(fun j : Job => if j.id == r.id then
        { j with status := "declined", offer_expires_at := none } else j) k,
      List.mem_map_of_mem _ (by rw [mark_declined_jobs]; exact hk), ?_⟩
    dsimp only
    split <;> exact hki
  rcases redistribute_shape env now
      { mark_declined st r.rootOf d with
        jobs := setStatusById (mark_declined st r.rootOf d).jobs r.id "declined" }
      r 120 50 180 with ⟨-, heq⟩ | ⟨pl, pg, bp, -, -, -, -, heq⟩
  · rw [heq]
    exact hbase
  · rw [heq]
    rcases hbase with ⟨k', hk', hk'i⟩
    exact ⟨k', List.mem_append.mpr (Or.inl hk'), hk'i⟩

theorem sweep_foldl_declines_mono (env : Env) (now : Nat) (rows : List Job) :
    ∀ (st : St) (p : Nat × String), p ∈ st.declines →
      p ∈ (rows.foldl (fun s r => expireStep env now s r) st).declines := by
  induction rows with
  | nil => intro st p hp; exact hp
  | cons r rest ih =>
    intro st p hp
    rw [List.foldl_cons]
    exact ih _ p (declineCore_declines_mono env now st r r.driver_id p hp)

theorem sweep_foldl_marks (env : Env) (now : Nat) (rows : List Job) :
    ∀ (st : St) (i : Nat), i < st.nextId →
      (∀ j ∈ st.jobs, j.id = i → j.status = "declined") →
      ∀ j ∈ (rows.foldl (fun s r => expireStep env now s r) st).jobs,
        j.id = i → j.status = "declined" := by
  induction rows with
  | nil => intro st i _ hall; exact hall
  | cons r rest ih =>
    intro st i hi hall
    rw [List.foldl_cons]
    refine ih _ i ?_ ?_
    · exact lt_of_lt_of_le hi (declineCore_nextId_ge env now st r r.driver_id)
    · exact declineCore_preserves_declined_id env now st r r.driver_id i hi hall

theorem sweep_foldl_exists_id (env : Env) (now : Nat) (rows : List Job) :
    ∀ (st : St) (i : Nat), (∃ k ∈ st.jobs, k.id = i) →
      ∃ k ∈ (rows.foldl (fun s r => expireStep env now s r) st).jobs, k.id = i := by
  induction rows with
  | nil => intro st i h; exact h
  | cons r rest ih =>
    intro st i h
    rw [List.foldl_cons]
    exact ih _ i (declineCore_exists_id env now st r r.driver_id i h)

theorem sweep_go (env : Env) (now : Nat) (rows : List Job) :
    ∀ (st : St) (j : Job),
      (∀ k ∈ rows, k ∈ st.jobs) →
      (∀ k ∈ st.jobs, k.id < st.nextId) →
      (rows.map Job.id).Nodup →
      j ∈ rows →
      (j.rootOf, j.driver_id) ∈
        (rows.foldl (fun s r => expireStep env now s r) st).declines ∧
      (∀ k ∈ (rows.foldl (fun s r => expireStep env now s r) st).jobs,
        k.id = j.id → k.status = "declined") ∧
      ∃ k ∈ (rows.foldl (fun s r => expireStep env now s r) st).jobs,
        k.id = j.id := by
  induction rows with
  | nil => intro st j _ _ _ hj; cases hj
  | cons r rest ih =>
    intro st j hmem hlt hnd hj
    rw [List.map_cons, List.nodup_cons] at hnd
    rw [List.foldl_cons]
    have hrmem : r ∈ st.jobs := hmem r (List.mem_cons_self r rest)
    have hlt' : ∀ k ∈ (expireStep env now st r).jobs,
        k.id < (expireStep env now st r).nextId :=
      declineCore_id_lt env now st r r.driver_id hlt
    have hmem' : ∀ k ∈ rest, k ∈ (expireStep env now st r).jobs := by
      intro k hk
      have hkne : k.id ≠ r.id := fun hh =>
        hnd.1 (by rw [← hh]; exact List.mem_map_of_mem Job.id hk)
      exact declineCore_preserves_other env now st r r.driver_id k
        (hmem k (List.mem_cons_of_mem r hk)) hkne
    rcases List.mem_cons.mp hj with hjr | hjrest
    · rw [hjr]
      refine ⟨?_, ?_, ?_⟩
      · exact sweep_foldl_declines_mono env now rest _ _
          (declineCore_declines_self env now st r r.driver_id)
      · refine sweep_foldl_marks env now rest _ r.id ?_ ?_
        · exact lt_of_lt_of_le (hlt r hrmem)
            (declineCore_nextId_ge env now st r r.driver_id)
        · intro k hk hid
          exact (declineCore_row_declined env now st r r.driver_id hlt hrmem
            k hk hid).1
      · refine sweep_foldl_exists_id env now rest _ r.id ?_
        exact declineCore_exists_id env now st r r.driver_id r.id ⟨r, hrmem, rfl⟩
    · exact ih _ j hmem' hlt' hnd.2 hjrest

/-- C7 (sweeper modelled from the spec, since `src/main.py` only has the
lazy expiry in `get_offers`): one sweep invocation applies the code's expire
transition to every `offered` job whose deadline has passed, so with zero
driver interaction each such job ends the sweep `declined` — its
`(root_id, driver_id)` ledger entry recorded and its redistribution (or
terminal exhaustion) triggered by the same `declineCore` transition the
decline path uses. -/
theorem c7_sweeper_expires_all (env : Env) (now : Nat) (st : St) (j : Job)
    (hids : (st.jobs.map Job.id).Nodup)
    (hlt : ∀ k ∈ st.jobs, k.id < st.nextId)
    (hj : j ∈ st.jobs) (hoff : j.status = "offered")
    (hexp : is_offer_expired env j.offer_expires_at now = true) :
    (j.rootOf, j.driver_id) ∈ (sweepExpired env now st).declines ∧
    (∀ k ∈ (sweepExpired env now st).jobs, k.id = j.id →
      k.status = "declined") ∧
    ∃ k ∈ (sweepExpired env now st).jobs, k.id = j.id := by
  unfold sweepExpired
  refine sweep_go env now _ st j ?_ hlt ?_ ?_
  · intro k hk
    exact (List.mem_filter.mp hk).1
  · exact List.Nodup.sublist (List.Sublist.map _ (List.filter_sublist _)) hids
  · refine List.mem_filter.mpr ⟨hj, ?_⟩
    rw [Bool.and_eq_true]
    exact ⟨by simp [hoff], hexp⟩

/-- C7 witness: sweeping `stC5` at time 200 ledger-records the expired
offer's `(0, A)` pair. -/
theorem c7_witness :
    (0, "A") ∈ (sweepExpired env0 200 stC5).declines :=
  (c7_sweeper_expires_all env0 200 stC5 job0exp (by decide) (by decide)
    (by decide) rfl (by decide)).1

end EasyTaxi
